import Mathlib

/-!
Verification of the shopping-assistant repository's core algorithms against its
natural-language specification.

The development shallowly embeds the Python source:

* `src/shopping_assistant/preprocessor.py` — price cleaning (`_clean_prices`,
  `process`), price bucketing (`_price_bucket`), and the taxonomy extraction
  pipeline (`_extract_product_type`, `_post_rules`).
* `src/src/shopping_assistant/indexing/product_index.py` — `text_search`,
  `get_similar_products`, `get_product_by_id`, `get_trending_products`,
  `filter_products`.
* `src/src/shopping_assistant/indexing/search_engine.py` — the `SearchEngine`
  facade and its ready-state guards.
* `src/src/shopping_assistant/indexing/data_preprocessor.py` —
  `categorize_price_range`.

Modelling conventions:

* Python floats are modelled as `ℚ`.  `round(x, 2)` (pandas `.round(2)`) is
  modelled as `round2` below; the half-way tie rule (banker's rounding in
  pandas) is never exercised by any claim, which only compares the same
  rounding applied on both sides.
* Missing values (`NaN` / `None`) are modelled as `Option`.
* `np.argsort` is modelled as a stable ascending sort (numpy's default kind
  is insertion sort for the short arrays in every concrete example here, and
  unspecified-but-deterministic otherwise).  `pandas.Series.nlargest` keeps
  the first-occurring row among ties, i.e. a stable descending sort.
* Python `dict` iteration preserves insertion order (guaranteed since 3.7);
  Python `set` iteration order is hash-dependent.  Sets of labels are
  modelled as insertion-ordered duplicate-free lists — the most favourable
  deterministic reading for the order-related claims; the order claims that
  fail below fail even under this most favourable model, because of the
  deterministic longest-match-first sort in the source.
* Library calls (`sklearn.cosine_similarity`, the fitted
  `TfidfVectorizer.transform`) are taken as parameters of the embedded
  functions: the claims under scrutiny are about the repository's own
  orchestration (ranking, slicing, filtering, state handling), not about the
  library internals.
-/

namespace ShopAssist

/-- Model of `Series.round(2)` / `round(x, 2)`: round to 2 decimal places.
Ties are rounded half-up here; no theorem below depends on the tie rule. -/
def round2 (q : ℚ) : ℚ := (⌊q * 100 + 1 / 2⌋ : ℚ) / 100

/-- Insertion-ordered deduplication: keep the first occurrence of each
element.  This is the model of Python's `list(set(xs))` / set iteration under
the insertion-order convention described in the file header. -/
def dedupKeepFirst (xs : List String) : List String :=
  xs.foldl (fun acc x => if x ∈ acc then acc else acc ++ [x]) []

/-! ### Price bucketing (claim C6)

`DataPreprocessor._price_bucket` (src/shopping_assistant/preprocessor.py,
lines 589–598) and `DataPreprocessor.categorize_price_range`
(src/src/shopping_assistant/indexing/data_preprocessor.py, lines 143–154).
`pd.isna(price)` is modelled by the `none` case. -/

/-- Embedding of `DataPreprocessor._price_bucket`. -/
def price_bucket (price : Option ℚ) : String :=
  match price with
  | none => "unknown"
  | some p =>
    if p < 5 then "budget"
    else if p < 15 then "mid-range"
    else if p < 30 then "premium"
    else "luxury"

/-- Embedding of `DataPreprocessor.categorize_price_range` from the indexing
package (an `if`/`elif` chain with the same thresholds). -/
def categorize_price_range (price : Option ℚ) : String :=
  match price with
  | none => "unknown"
  | some p =>
    if p < 5 then "budget"
    else if p < 15 then "mid-range"
    else if p < 30 then "premium"
    else "luxury"

/-! ### Price cleaning (claim C5)

`DataPreprocessor._clean_prices` (src/shopping_assistant/preprocessor.py,
lines 426–453) and the `dropna(subset=["sell_price"])` step of
`DataPreprocessor.process` (line 411). -/

/-- One character-level step of the `CURRENCY_RE` substitution
(`[₹]|Rs\.?|INR|,|\s`, case-insensitive): at each position the first
alternative that matches is removed.  Returns how many characters the match
consumes, or `none` when no alternative matches at this position. -/
def currencyMatchLen (cs : List Char) : Option ℕ :=
  match cs with
  | [] => none
  | c :: rest =>
    if c = '₹' then some 1
    else if c.toLower = 'r' then
      match rest with
      | c₂ :: rest₂ =>
        if c₂.toLower = 's' then
          match rest₂ with
          | c₃ :: _ => if c₃ = '.' then some 3 else some 2
          | [] => some 2
        else none
      | [] => none
    else if c.toLower = 'i' then
      match rest with
      | c₂ :: c₃ :: _ =>
        if c₂.toLower = 'n' ∧ c₃.toLower = 'r' then some 3 else none
      | _ => none
    else if c = ',' then some 1
    else if c.isWhitespace then some 1
    else none

/-- Fuel-driven scan for `re.sub(CURRENCY_RE, "", s)`.  Every match consumes
at least one character, so fuel equal to the text length never runs out. -/
def stripCurrencyAux : ℕ → List Char → List Char
  | 0, _ => []
  | _ + 1, [] => []
  | fuel + 1, c :: rest =>
    match currencyMatchLen (c :: rest) with
    | some n => stripCurrencyAux fuel ((c :: rest).drop n)
    | none => c :: stripCurrencyAux fuel rest

/-- `re.sub(CURRENCY_RE, "", s)`: strip currency markers, thousands
separators and whitespace, scanning left to right. -/
def stripCurrency (cs : List Char) : List Char := stripCurrencyAux cs.length cs

/-- Value of a digit string. -/
def digitsToNat (ds : List Char) : ℕ := ds.foldl (fun a c => a * 10 + (c.toNat - 48)) 0

/-- Decimal parse modelling `pd.to_numeric(…, errors="coerce")` on the
stripped text: an optional sign, then digits with at most one decimal point
(at least one digit overall).  Anything else — including the string `nan`
that `astype(str)` produces for a missing cell — is treated as missing.
(Scientific notation, which never appears in this catalog's price columns,
is not modelled.) -/
def parseDecimal (cs : List Char) : Option ℚ :=
  let core : List Char → Option ℚ := fun ds =>
    let intPart := ds.takeWhile Char.isDigit
    let rest := ds.dropWhile Char.isDigit
    match rest with
    | [] =>
      if intPart.isEmpty then none
      else some ((digitsToNat intPart : ℕ) : ℚ)
    | '.' :: fracs =>
      if fracs.all Char.isDigit ∧ ¬(intPart.isEmpty ∧ fracs.isEmpty) then
        some (((digitsToNat intPart : ℕ) : ℚ)
          + ((digitsToNat fracs : ℕ) : ℚ) / ((10 : ℚ) ^ fracs.length))
      else none
    | _ => none
  match cs with
  | '+' :: rest => core rest
  | '-' :: rest => (core rest).map Neg.neg
  | _ => core cs

/-- Parse one raw price cell: strip currency markers, then coerce to a
number, `none` when unparseable (pandas `NaN`). -/
def parsePrice (s : String) : Option ℚ := parseDecimal (stripCurrency s.data)

/-- Per-record embedding of `DataPreprocessor._clean_prices`: parse `MRP` and
`SellPrice`, convert by the currency rate and round to 2 decimals, then
backfill `sell_price` from `MRP` when missing.  Returns
`(MRP, sell_price)` as they stand after `_clean_prices`.  (The source first
replaces newlines with spaces in `MRP` only; `CURRENCY_RE` strips all
whitespace right after, so the extra replace has no net effect and is
folded into `parsePrice`.) -/
def clean_prices (rate : ℚ) (mrpRaw sellRaw : String) : Option ℚ × Option ℚ :=
  let mrp := (parsePrice mrpRaw).map (fun v => round2 (v * rate))
  let sell := (parsePrice sellRaw).map (fun v => round2 (v * rate))
  let sellBackfilled := match sell with
    | some v => some v
    | none => mrp
  (mrp, sellBackfilled)

/-- The `process` step `df.dropna(subset=["sell_price"], how="all")`
restricted to the price columns: a record is retained exactly when its
`sell_price` is present after `_clean_prices`. -/
def processPrices (rate : ℚ) (rows : List (String × String)) : List (Option ℚ × Option ℚ) :=
  (rows.map (fun r => clean_prices rate r.1 r.2)).filter (fun r => r.2.isSome)

/-! ### Ranking primitives

`np.argsort` (ascending, stable) and `pandas.Series.nlargest` (descending,
`keep="first"`), modelled as insertion sorts of the index list
`[0, …, n-1]` under total orders on indices. -/

/-- Score of row `i` under the score vector `v` (out-of-range reads, which
never occur on the index lists used below, default to 0). -/
def val (v : List ℚ) (i : ℕ) : ℚ := v.getD i 0

/-- Ascending by score, ties by ascending row index: the order produced by a
stable ascending `argsort`. -/
def AscLex (v : List ℚ) (i j : ℕ) : Prop :=
  val v i < val v j ∨ (val v i = val v j ∧ i ≤ j)

/-- Descending by score, ties by *descending* row index: the order of
`argsort()[::-1]`. -/
def DescLexRev (v : List ℚ) (i j : ℕ) : Prop :=
  val v j < val v i ∨ (val v i = val v j ∧ j ≤ i)

/-- Descending by score, ties by ascending row index: the order of
`Series.nlargest` (`keep="first"`), and the order asserted by the spec's
"ties broken by original row order". -/
def DescLexFirst (v : List ℚ) (i j : ℕ) : Prop :=
  val v j < val v i ∨ (val v i = val v j ∧ i ≤ j)

instance (v : List ℚ) : DecidableRel (AscLex v) := fun i j => by
  unfold AscLex; infer_instance

instance (v : List ℚ) : DecidableRel (DescLexRev v) := fun i j => by
  unfold DescLexRev; infer_instance

instance (v : List ℚ) : DecidableRel (DescLexFirst v) := fun i j => by
  unfold DescLexFirst; infer_instance

instance (v : List ℚ) : IsTotal ℕ (AscLex v) where
  total i j := by
    unfold AscLex
    rcases lt_trichotomy (val v i) (val v j) with h | h | h
    · exact Or.inl (Or.inl h)
    · rcases Nat.le_total i j with hij | hij
      · exact Or.inl (Or.inr ⟨h, hij⟩)
      · exact Or.inr (Or.inr ⟨h.symm, hij⟩)
    · exact Or.inr (Or.inl h)

instance (v : List ℚ) : IsTrans ℕ (AscLex v) where
  trans i j k hij hjk := by
    unfold AscLex at *
    rcases hij with h₁ | ⟨h₁, h₁'⟩ <;> rcases hjk with h₂ | ⟨h₂, h₂'⟩
    · exact Or.inl (h₁.trans h₂)
    · exact Or.inl (h₂ ▸ h₁)
    · exact Or.inl (h₁ ▸ h₂)
    · exact Or.inr ⟨h₁.trans h₂, h₁'.trans h₂'⟩

instance (v : List ℚ) : IsAntisymm ℕ (AscLex v) where
  antisymm i j hij hji := by
    unfold AscLex at *
    rcases hij with h₁ | ⟨h₁, h₁'⟩ <;> rcases hji with h₂ | ⟨h₂, h₂'⟩
    · exact absurd (h₁.trans h₂) (lt_irrefl _)
    · exact absurd h₁ (h₂ ▸ lt_irrefl _)
    · exact absurd h₂ (h₁ ▸ lt_irrefl _)
    · exact Nat.le_antisymm h₁' h₂'

instance (v : List ℚ) : IsTotal ℕ (DescLexRev v) where
  total i j := by
    unfold DescLexRev
    rcases lt_trichotomy (val v i) (val v j) with h | h | h
    · exact Or.inr (Or.inl h)
    · rcases Nat.le_total i j with hij | hij
      · exact Or.inr (Or.inr ⟨h.symm, hij⟩)
      · exact Or.inl (Or.inr ⟨h, hij⟩)
    · exact Or.inl (Or.inl h)

instance (v : List ℚ) : IsTrans ℕ (DescLexRev v) where
  trans i j k hij hjk := by
    unfold DescLexRev at *
    rcases hij with h₁ | ⟨h₁, h₁'⟩ <;> rcases hjk with h₂ | ⟨h₂, h₂'⟩
    · exact Or.inl (h₂.trans h₁)
    · exact Or.inl (h₂ ▸ h₁)
    · exact Or.inl (h₁ ▸ h₂)
    · exact Or.inr ⟨h₂ ▸ h₁, h₂'.trans h₁'⟩

instance (v : List ℚ) : IsAntisymm ℕ (DescLexRev v) where
  antisymm i j hij hji := by
    unfold DescLexRev at *
    rcases hij with h₁ | ⟨h₁, h₁'⟩ <;> rcases hji with h₂ | ⟨h₂, h₂'⟩
    · exact absurd (h₁.trans h₂) (lt_irrefl _)
    · exact absurd h₁ (h₂ ▸ lt_irrefl _)
    · exact absurd h₂ (h₁ ▸ lt_irrefl _)
    · exact Nat.le_antisymm h₂' h₁'

instance (v : List ℚ) : IsTotal ℕ (DescLexFirst v) where
  total i j := by
    unfold DescLexFirst
    rcases lt_trichotomy (val v i) (val v j) with h | h | h
    · exact Or.inr (Or.inl h)
    · rcases Nat.le_total i j with hij | hij
      · exact Or.inl (Or.inr ⟨h, hij⟩)
      · exact Or.inr (Or.inr ⟨h.symm, hij⟩)
    · exact Or.inl (Or.inl h)

instance (v : List ℚ) : IsTrans ℕ (DescLexFirst v) where
  trans i j k hij hjk := by
    unfold DescLexFirst at *
    rcases hij with h₁ | ⟨h₁, h₁'⟩ <;> rcases hjk with h₂ | ⟨h₂, h₂'⟩
    · exact Or.inl (h₂.trans h₁)
    · exact Or.inl (h₂ ▸ h₁)
    · exact Or.inl (h₁ ▸ h₂)
    · exact Or.inr ⟨h₂ ▸ h₁, h₁'.trans h₂'⟩

instance (v : List ℚ) : IsAntisymm ℕ (DescLexFirst v) where
  antisymm i j hij hji := by
    unfold DescLexFirst at *
    rcases hij with h₁ | ⟨h₁, h₁'⟩ <;> rcases hji with h₂ | ⟨h₂, h₂'⟩
    · exact absurd (h₁.trans h₂) (lt_irrefl _)
    · exact absurd h₁ (h₂ ▸ lt_irrefl _)
    · exact absurd h₂ (h₁ ▸ lt_irrefl _)
    · exact Nat.le_antisymm h₁' h₂'

/-- `np.argsort(v)`: the row indices of `v` in stable ascending score
order. -/
def argsortAsc (v : List ℚ) : List ℕ :=
  List.insertionSort (AscLex v) (List.range v.length)

/-- The row indices of `v` in descending score order with ties by descending
row index — the order `argsort()[::-1]` actually produces. -/
def rankDesc (v : List ℚ) : List ℕ :=
  List.insertionSort (DescLexRev v) (List.range v.length)

/-- The row indices of `v` in descending score order with ties by ascending
row index — the order of `Series.nlargest` and of the spec's stable
descending ranking. -/
def rankDescFirst (v : List ℚ) : List ℕ :=
  List.insertionSort (DescLexFirst v) (List.range v.length)

theorem argsortAsc_reverse (v : List ℚ) : (argsortAsc v).reverse = rankDesc v := by
  apply List.eq_of_perm_of_sorted (r := DescLexRev v)
  · exact ((argsortAsc v).reverse_perm.trans
      (List.perm_insertionSort _ _)).trans (List.perm_insertionSort _ _).symm
  · have h := List.sorted_insertionSort (AscLex v) (List.range v.length)
    refine List.pairwise_reverse.mpr (h.imp ?_)
    intro i j hij
    rcases hij with h₁ | ⟨h₁, h₁'⟩
    · exact Or.inl h₁
    · exact Or.inr ⟨h₁.symm, h₁'⟩
  · exact List.sorted_insertionSort _ _

theorem take_min_length {α : Type} (l : List α) (k : ℕ) :
    l.take (min k l.length) = l.take k := by
  rcases Nat.le_total k l.length with h | h
  · rw [Nat.min_eq_left h]
  · rw [Nat.min_eq_right h, List.take_length, List.take_of_length_le h]

/-- The Python slice-and-reverse `order[-k:][::-1]`, for `k ≥ 1`, is the
first `k` elements of the reversed order. -/
theorem drop_reverse_eq_take {α : Type} (l : List α) (k : ℕ) :
    (l.drop (l.length - k)).reverse = l.reverse.take k := by
  rw [List.reverse_drop]
  have h1 : l.length - (l.length - k) = min k l.length := by omega
  rw [h1, ← List.length_reverse l, take_min_length]

/-- On a list sorted by a relation along which `p` is upward-closed (among
the list's own elements), filtering commutes with `take`. -/
theorem take_filter_comm {α : Type} (p : α → Bool) (r : α → α → Prop) :
    ∀ (l : List α), l.Pairwise r →
      (∀ a ∈ l, ∀ b ∈ l, r a b → p b = true → p a = true) → ∀ (k : ℕ),
      (l.take k).filter p = (l.filter p).take k := by
  intro l
  induction l with
  | nil => intro _ _ k; simp
  | cons a t ih =>
    intro hl hmono k
    have ht := List.Pairwise.of_cons hl
    have hrel : ∀ b ∈ t, r a b := fun b hb => List.rel_of_pairwise_cons hl hb
    have hmono' : ∀ x ∈ t, ∀ y ∈ t, r x y → p y = true → p x = true :=
      fun x hx y hy => hmono x (List.mem_cons_of_mem a hx) y (List.mem_cons_of_mem a hy)
    match k with
    | 0 => simp
    | k + 1 =>
      by_cases hpa : p a = true
      · simp only [List.take_succ_cons, List.filter_cons, hpa, if_pos]
        simp only [ih ht hmono' k]
      · have hfilt : t.filter p = [] := by
          rw [List.filter_eq_nil_iff]
          intro b hb hpb
          exact hpa (hmono a (List.mem_cons_self a t) b (List.mem_cons_of_mem a hb)
            (hrel b hb) hpb)
        have hfilt2 : (t.take k).filter p = [] := by
          rw [List.filter_eq_nil_iff]
          intro b hb hpb
          have hbt := List.mem_of_mem_take hb
          exact hpa (hmono a (List.mem_cons_self a t) b (List.mem_cons_of_mem a hbt)
            (hrel b hbt) hpb)
        simp only [List.take_succ_cons, List.filter_cons, hpa]
        simp [hfilt, hfilt2]

/-- If at least `k` elements of a `r`-sorted list satisfy the upward-closed
predicate `p`, the first `k` elements all satisfy it. -/
theorem take_all_sat {α : Type} (p : α → Bool) (r : α → α → Prop)
    (l : List α) (hl : l.Pairwise r)
    (hmono : ∀ a ∈ l, ∀ b ∈ l, r a b → p b = true → p a = true) (k : ℕ)
    (hk : k ≤ (l.filter p).length) :
    ∀ x ∈ l.take k, p x = true := by
  have hcomm := take_filter_comm p r l hl hmono k
  have hlen : ((l.take k).filter p).length = k := by
    rw [hcomm, List.length_take]
    have := List.length_filter_le p l
    omega
  have hsub : List.Sublist ((l.take k).filter p) (l.take k) := List.filter_sublist _
  have hlen2 : (l.take k).length = k := by
    rw [List.length_take]
    have := List.length_filter_le p l
    omega
  have heq : (l.take k).filter p = l.take k :=
    (List.Sublist.length_eq hsub).mp (by rw [hlen, hlen2])
  intro x hx
  exact List.of_mem_filter (heq ▸ hx)

/-! ### Ranking primitives over NaN-able scores

`get_similar_products` ranks a score vector that can contain NaN: this
package's preprocessor never drops or backfills a missing
`SellPrice_numeric`, and the missing value propagates through
`price_diffs` into the combined score.  `none` models NaN.  `np.argsort`
places NaN entries last in ascending order; pandas `Series.argsort` — the
variant the source actually hits, since the combined scores form a Series —
instead emits `-1` markers for NaN rows, which after `[-top_k:][::-1]`
make `iloc` wrap around to rows at the end of the catalog.  The model
adopts the NaN-last order; no theorem below depends on the relative
position of NaN rows (claim C1's hypotheses exclude missing prices), and
under either library semantics a NaN row can push the reference product
back into the returned slice. -/

/-- Score of row `i` under a NaN-able score vector (out-of-range reads,
never exercised on the index lists below, default to `some 0`). -/
def valO (v : List (Option ℚ)) (i : ℕ) : Option ℚ := v.getD i (some 0)

/-- Strict comparison of NaN-able scores, NaN ordered last. -/
def optLtb : Option ℚ → Option ℚ → Bool
  | some x, some y => decide (x < y)
  | some _, none => true
  | none, _ => false

theorem optLtb_trichotomy (a b : Option ℚ) :
    optLtb a b = true ∨ a = b ∨ optLtb b a = true := by
  rcases a with _ | x <;> rcases b with _ | y <;> simp [optLtb]
  exact lt_trichotomy x y

theorem optLtb_trans {a b c : Option ℚ} (h₁ : optLtb a b = true)
    (h₂ : optLtb b c = true) : optLtb a c = true := by
  rcases a with _ | x <;> rcases b with _ | y <;> rcases c with _ | z <;>
    simp [optLtb] at *
  exact h₁.trans h₂

theorem optLtb_asymm {a b : Option ℚ} (h₁ : optLtb a b = true)
    (h₂ : optLtb b a = true) : False := by
  rcases a with _ | x <;> rcases b with _ | y <;> simp [optLtb] at *
  exact absurd (h₁.trans h₂) (lt_irrefl x)

/-- Ascending by NaN-last score, ties by ascending row index. -/
def AscLexO (v : List (Option ℚ)) (i j : ℕ) : Prop :=
  optLtb (valO v i) (valO v j) = true ∨ (valO v i = valO v j ∧ i ≤ j)

/-- Descending by NaN-last score (NaN rows first), ties by *descending*
row index: the order of `argsort()[::-1]` on a NaN-able vector. -/
def DescLexRevO (v : List (Option ℚ)) (i j : ℕ) : Prop :=
  optLtb (valO v j) (valO v i) = true ∨ (valO v i = valO v j ∧ j ≤ i)

instance (v : List (Option ℚ)) : DecidableRel (AscLexO v) := fun i j => by
  unfold AscLexO; infer_instance

instance (v : List (Option ℚ)) : DecidableRel (DescLexRevO v) := fun i j => by
  unfold DescLexRevO; infer_instance

instance (v : List (Option ℚ)) : IsTotal ℕ (AscLexO v) where
  total i j := by
    unfold AscLexO
    rcases optLtb_trichotomy (valO v i) (valO v j) with h | h | h
    · exact Or.inl (Or.inl h)
    · rcases Nat.le_total i j with hij | hij
      · exact Or.inl (Or.inr ⟨h, hij⟩)
      · exact Or.inr (Or.inr ⟨h.symm, hij⟩)
    · exact Or.inr (Or.inl h)

instance (v : List (Option ℚ)) : IsTrans ℕ (AscLexO v) where
  trans i j k hij hjk := by
    unfold AscLexO at *
    rcases hij with h₁ | ⟨h₁, h₁'⟩ <;> rcases hjk with h₂ | ⟨h₂, h₂'⟩
    · exact Or.inl (optLtb_trans h₁ h₂)
    · exact Or.inl (h₂ ▸ h₁)
    · exact Or.inl (h₁ ▸ h₂)
    · exact Or.inr ⟨h₁.trans h₂, h₁'.trans h₂'⟩

instance (v : List (Option ℚ)) : IsAntisymm ℕ (AscLexO v) where
  antisymm i j hij hji := by
    unfold AscLexO at *
    rcases hij with h₁ | ⟨h₁, h₁'⟩ <;> rcases hji with h₂ | ⟨h₂, h₂'⟩
    · exact (optLtb_asymm h₁ h₂).elim
    · exact (optLtb_asymm (h₂ ▸ h₁) (h₂ ▸ h₁)).elim
    · exact (optLtb_asymm (h₁ ▸ h₂) (h₁ ▸ h₂)).elim
    · exact Nat.le_antisymm h₁' h₂'

instance (v : List (Option ℚ)) : IsTotal ℕ (DescLexRevO v) where
  total i j := by
    unfold DescLexRevO
    rcases optLtb_trichotomy (valO v i) (valO v j) with h | h | h
    · exact Or.inr (Or.inl h)
    · rcases Nat.le_total i j with hij | hij
      · exact Or.inr (Or.inr ⟨h.symm, hij⟩)
      · exact Or.inl (Or.inr ⟨h, hij⟩)
    · exact Or.inl (Or.inl h)

instance (v : List (Option ℚ)) : IsTrans ℕ (DescLexRevO v) where
  trans i j k hij hjk := by
    unfold DescLexRevO at *
    rcases hij with h₁ | ⟨h₁, h₁'⟩ <;> rcases hjk with h₂ | ⟨h₂, h₂'⟩
    · exact Or.inl (optLtb_trans h₂ h₁)
    · exact Or.inl (h₂ ▸ h₁)
    · exact Or.inl (h₁ ▸ h₂)
    · exact Or.inr ⟨h₂ ▸ h₁, h₂'.trans h₁'⟩

instance (v : List (Option ℚ)) : IsAntisymm ℕ (DescLexRevO v) where
  antisymm i j hij hji := by
    unfold DescLexRevO at *
    rcases hij with h₁ | ⟨h₁, h₁'⟩ <;> rcases hji with h₂ | ⟨h₂, h₂'⟩
    · exact (optLtb_asymm h₁ h₂).elim
    · exact (optLtb_asymm (h₂ ▸ h₁) (h₂ ▸ h₁)).elim
    · exact (optLtb_asymm (h₁ ▸ h₂) (h₁ ▸ h₂)).elim
    · exact Nat.le_antisymm h₂' h₁'

/-- `np.argsort` on a NaN-able score vector: stable ascending, NaN last. -/
def argsortAscO (v : List (Option ℚ)) : List ℕ :=
  List.insertionSort (AscLexO v) (List.range v.length)

/-- The row indices of a NaN-able vector in the `argsort()[::-1]` order. -/
def rankDescO (v : List (Option ℚ)) : List ℕ :=
  List.insertionSort (DescLexRevO v) (List.range v.length)

theorem argsortAscO_reverse (v : List (Option ℚ)) :
    (argsortAscO v).reverse = rankDescO v := by
  apply List.eq_of_perm_of_sorted (r := DescLexRevO v)
  · exact ((argsortAscO v).reverse_perm.trans
      (List.perm_insertionSort _ _)).trans (List.perm_insertionSort _ _).symm
  · have h := List.sorted_insertionSort (AscLexO v) (List.range v.length)
    refine List.pairwise_reverse.mpr (h.imp ?_)
    intro i j hij
    rcases hij with h₁ | ⟨h₁, h₁'⟩
    · exact Or.inl h₁
    · exact Or.inr ⟨h₁.symm, h₁'⟩
  · exact List.sorted_insertionSort _ _

/-- Strict positivity of row `i`'s NaN-able score (NaN is not positive). -/
def posFilterO (v : List (Option ℚ)) (i : ℕ) : Bool :=
  match valO v i with
  | some x => decide (0 < x)
  | none => false

/-! ### The normalized catalog row used by the index

Fields of the processed DataFrame that `ProductIndex` and `SearchEngine`
read: `product_id`, `Category`, `BrandName`, `SellPrice_numeric`,
`Discount_numeric`, `material`, `sizes_list`, `price_range`, `search_text`.
`Option` marks columns that can be `NaN` (`Discount_numeric`, `material`,
and `SellPrice_numeric`, which this package's preprocessor does not drop). -/

structure Product where
  product_id : ℕ
  category : String
  brandName : String
  sellPrice : Option ℚ
  discount : Option ℚ
  material : Option String
  sizesList : List String
  priceRange : String
  searchText : String

instance : Inhabited Product := ⟨⟨0, "", "", none, none, none, [], "", ""⟩⟩

/-! ### `ProductIndex.text_search` ranking (claim C2)

`text_search` (product_index.py, lines 52–82) computes
`similarities = cosine_similarity(query_vector, tfidf_matrix)[0]`, then

    top_indices = similarities.argsort()[-top_k:][::-1]
    results = [… for idx in top_indices if similarities[idx] > 0]

The similarity vector (a library computation over the fitted TF-IDF state)
enters as the parameter `sims`; row `i` of the catalog scores
`val sims i`.  The slice `[-top_k:]` takes the whole array when
`top_k = 0` (Python `l[-0:]` is `l[0:]`). -/

/-- Strict positivity of row `i`'s score — the `similarities[idx] > 0`
guard. -/
def posFilter (v : List ℚ) (i : ℕ) : Bool := decide (0 < val v i)

/-- Embedding of the ranking portion of `ProductIndex.text_search`:
returns `(row index, similarity score)` pairs. -/
def text_search_core (sims : List ℚ) (top_k : ℕ) : List (ℕ × ℚ) :=
  let order := argsortAsc sims
  let sel := if top_k = 0 then order else order.drop (order.length - top_k)
  (sel.reverse.filter (posFilter sims)).map (fun i => (i, val sims i))

/-- The ranking claimed by the spec sentence for C2, word for word: the
`top_k` highest-scoring documents with strictly positive similarity, ties
broken by original row order (a stable descending ranking). -/
def text_search_claimed (sims : List ℚ) (top_k : ℕ) : List (ℕ × ℚ) :=
  (((rankDescFirst sims).filter (posFilter sims)).take top_k).map
    (fun i => (i, val sims i))

/-- The ranking the code actually produces (C2 as amended): the `top_k`
highest-scoring documents with strictly positive similarity, ties broken by
*descending* row order, because the ascending `argsort` is reversed. -/
def text_search_ranked (sims : List ℚ) (top_k : ℕ) : List (ℕ × ℚ) :=
  (((rankDesc sims).filter (posFilter sims)).take top_k).map
    (fun i => (i, val sims i))

/-! ### `ProductIndex.get_similar_products` (claims C1, C8)

Lines 143–200 of product_index.py.  The text-similarity row
`cosine_similarity(reference_vector, tfidf_matrix)[0]` enters as the
parameter `textSims`.  The catalog's `product_id` column equals the
DataFrame's default `RangeIndex` (`df["product_id"] = df.index`), so the
label `ref_product.index[0]` is the positional row index `refIdx`. -/

/-- `np.abs(a - b)` on NaN-able cells: NaN when either side is missing. -/
def optAbsSub (a b : Option ℚ) : Option ℚ :=
  match a, b with
  | some x, some y => some |x - y|
  | _, _ => none

/-- `Series.max()` with its default `skipna=True`: the maximum of the
present values, NaN only when every value is missing. -/
def skipnaMax (xs : List (Option ℚ)) : Option ℚ :=
  xs.foldl
    (fun acc x =>
      match acc, x with
      | none, x => x
      | some m, none => some m
      | some m, some y => some (max m y)) none

/-- The price-similarity vector of `get_similar_products` (lines 168–172):
`1 - |price_i - price_ref| / max_j |price_j - price_ref|`.  A missing
`SellPrice_numeric` propagates as NaN (`none`) through `price_diffs` and the
division; the `if max_price_diff > 0` gate is False both for a NaN maximum
(all prices missing, including the reference's) and for a zero maximum (all
prices equal), falling back to `np.ones`. -/
def priceSimilarities (ps : List Product) (refIdx : ℕ) : List (Option ℚ) :=
  let refPrice := (ps.getD refIdx default).sellPrice
  let priceDiffs := ps.map (fun p => optAbsSub p.sellPrice refPrice)
  let maxDiff := skipnaMax priceDiffs
  if 0 < maxDiff.getD 0 then
    priceDiffs.map (Option.map (fun d => 1 - d / maxDiff.getD 0))
  else List.replicate ps.length (some 1)

/-- The combined similarity vector of `get_similar_products` (lines
164–186): text, price and category similarities blended `0.6/0.2/0.2`, with
the reference row then forced to 0
(`combined_similarities[ref_idx] = 0`).  A row whose price similarity is
NaN gets a NaN combined score (text and category similarities are always
present). -/
def combinedScores (ps : List Product) (textSims : List ℚ) (refIdx : ℕ) :
    List (Option ℚ) :=
  let ref := ps.getD refIdx default
  let priceSims := priceSimilarities ps refIdx
  let catSims := ps.map (fun p => if p.category = ref.category then (1 : ℚ) else 0)
  (((List.range ps.length).map (fun i =>
    match priceSims.getD i none with
    | some pr => some (0.6 * val textSims i + 0.2 * pr + 0.2 * val catSims i)
    | none => none)).set refIdx (some 0))

/-- Embedding of `ProductIndex.get_similar_products`: find the reference by
`product_id` (raising "not found" when absent), rank every row by its
NaN-able combined score through `argsort()[-top_k:][::-1]`, and return
`(row index, combined score)` pairs — with no positivity filter. -/
def get_similar_products (ps : List Product) (textSims : List ℚ) (pid top_k : ℕ) :
    Except String (List (ℕ × Option ℚ)) :=
  match ps.findIdx? (fun p => p.product_id == pid) with
  | none => .error s!"Product with ID {pid} not found"
  | some refIdx =>
    let combined := combinedScores ps textSims refIdx
    let order := argsortAscO combined
    let sel := if top_k = 0 then order else order.drop (order.length - top_k)
    .ok (sel.reverse.map (fun i => (i, valO combined i)))

/-- Embedding of `ProductIndex.get_product_by_id` (lines 202–208): the first
row whose `product_id` matches, or `None` — not an error — when absent. -/
def get_product_by_id (ps : List Product) (pid : ℕ) : Option Product :=
  ps.find? (fun p => p.product_id == pid)

/-! ### `ProductIndex.get_trending_products` (claim C9)

Lines 215–236: `Discount_numeric.fillna(0) * 0.7 +
(1 / (SellPrice_numeric.fillna(1000) / 1000)) * 0.3`, then
`nlargest(limit)` (stable descending, ties keep the earlier row). -/

/-- The trending score exactly as the code computes it. -/
def trendingScore (p : Product) : ℚ :=
  p.discount.getD 0 * 0.7 + 1 / (p.sellPrice.getD 1000 / 1000) * 0.3

/-- Embedding of `ProductIndex.get_trending_products`: `(row index,
trending score)` pairs of the `limit` highest-scoring rows. -/
def get_trending_products (ps : List Product) (limit : ℕ) : List (ℕ × ℚ) :=
  let scores := ps.map trendingScore
  ((rankDescFirst scores).take limit).map (fun i => (i, val scores i))

/-- The trending score as claim C9 states it: `0.7 * discount_pct (or 0 if
missing) + 0.3 * (1000 / max(sell_price, 1000))`, reading the claim's
"1000-scale-floor" as a floor of 1000 on the divisor. -/
def trendingScoreClaimed (p : Product) : ℚ :=
  0.7 * p.discount.getD 0 + 0.3 * (1000 / max (p.sellPrice.getD 1000) 1000)

/-- The trending ranking per claim C9's formula. -/
def get_trending_claimed (ps : List Product) (limit : ℕ) : List (ℕ × ℚ) :=
  let scores := ps.map trendingScoreClaimed
  ((rankDescFirst scores).take limit).map (fun i => (i, val scores i))

/-- The corrected trending score: `0.7 * discount_pct(or 0 if missing) +
0.3 * (1000 / sell_price)` with a missing `sell_price` treated as 1000 and
no floor on the divisor. -/
def trendingScoreAmended (p : Product) : ℚ :=
  0.7 * p.discount.getD 0 + 0.3 * (1000 / p.sellPrice.getD 1000)

/-- The trending ranking per the amended formula. -/
def get_trending_amended (ps : List Product) (limit : ℕ) : List (ℕ × ℚ) :=
  let scores := ps.map trendingScoreAmended
  ((rankDescFirst scores).take limit).map (fun i => (i, val scores i))

/-! ### `ProductIndex.filter_products` (used by `SearchEngine.search`) -/

/-- Case-insensitive substring test (`Series.str.contains(needle,
case=False)` with a plain-text needle). -/
def containsCI (hay needle : String) : Bool :=
  let h := hay.toLower.data
  let n := needle.toLower.data
  (List.range (h.length + 1)).any (fun i => n.isPrefixOf (h.drop i))

/-- A string-valued filter argument is active only when truthy (Python
`if category:` — `None` and `""` both skip the filter). -/
def strFilterHolds (flt : Option String) (test : String → Bool) : Bool :=
  match flt with
  | none => true
  | some c => if c = "" then true else test c

/-- The filter arguments of `filter_products` / `SearchEngine.search`. -/
structure Filters where
  category : Option String
  brand : Option String
  min_price : Option ℚ
  max_price : Option ℚ
  material : Option String
  size : Option String
  price_range : Option String

/-- The row predicate of `ProductIndex.filter_products` (lines 84–141):
conjunction of the supplied filters; `NaN` cells fail active substring
filters (`na=False`) and active price bounds. -/
def productMatches (f : Filters) (p : Product) : Bool :=
  strFilterHolds f.category (fun c => containsCI p.category c) &&
  strFilterHolds f.brand (fun b => containsCI p.brandName b) &&
  (match f.min_price with
   | none => true
   | some m => match p.sellPrice with
     | none => false
     | some s => decide (m ≤ s)) &&
  (match f.max_price with
   | none => true
   | some m => match p.sellPrice with
     | none => false
     | some s => decide (s ≤ m)) &&
  strFilterHolds f.material (fun m =>
    match p.material with
    | none => false
    | some pm => containsCI pm m) &&
  strFilterHolds f.size (fun sz =>
    if p.sizesList.isEmpty then false
    else p.sizesList.any (fun s => containsCI s sz)) &&
  strFilterHolds f.price_range (fun r => p.priceRange == r)

/-- Embedding of `ProductIndex.filter_products`: the subsequence of the
catalog satisfying every supplied filter, original order preserved. -/
def filter_products (ps : List Product) (f : Filters) : List Product :=
  ps.filter (productMatches f)

/-! ### The `SearchEngine` facade (claims C7, C8, C10)

search_engine.py, lines 61–207.  The fitted `TfidfVectorizer.transform` (on
a single text) and `cosine_similarity` (of two vectors) are parameters:
`vectorizer` lives in the index state, the similarity function `sim` is
passed to the operations that need it.  Ready engines built through
`initialize_from_csv` always carry `some` products/matrix/vectorizer; the
unreachable `None` accesses that Python would crash on are modelled as
`TypeError` errors, and the guards that *do* exist in `ProductIndex`
(`products is None` / `tfidf_matrix is None`) keep their `ValueError`
messages. -/

/-- Truthiness of `query.strip()`: the query contains a non-whitespace
character. -/
def strip_nonempty (s : String) : Bool := s.data.any (fun c => !c.isWhitespace)

structure ProductIndexState where
  products : Option (List Product)
  tfidfMatrix : Option (List (List ℚ))
  vectorizer : Option (String → List ℚ)

structure SearchEngine where
  index : ProductIndexState
  is_ready : Bool

/-- Embedding of `ProductIndex.text_search` including its build guard:
transform the lower-cased query, score every document row, rank. -/
def index_text_search (sim : List ℚ → List ℚ → ℚ) (idx : ProductIndexState)
    (query : String) (top_k : ℕ) : Except String (List (ℕ × ℚ)) :=
  match idx.tfidfMatrix with
  | none => .error "Index not built. Call build_index() first."
  | some M =>
    match idx.vectorizer with
    | none => .error "TypeError: 'NoneType' object is not callable"
    | some vec =>
      let sims := M.map (sim (vec query.toLower))
      .ok (text_search_core sims top_k)

/-- Embedding of `ProductIndex.get_similar_products` at index level: the
build guard, the not-found check, then the combined-score ranking with text
similarities taken against the reference row of the fitted matrix. -/
def index_get_similar (sim : List ℚ → List ℚ → ℚ) (idx : ProductIndexState)
    (pid top_k : ℕ) : Except String (List (ℕ × Option ℚ)) :=
  match idx.products with
  | none => .error "Index not built. Call build_index() first."
  | some ps =>
    match ps.findIdx? (fun p => p.product_id == pid) with
    | none => .error s!"Product with ID {pid} not found"
    | some refIdx =>
      match idx.tfidfMatrix with
      | none => .error "TypeError: 'NoneType' object is not subscriptable"
      | some M =>
        let textSims := M.map (sim (M.getD refIdx []))
        get_similar_products ps textSims pid top_k

/-- Result of `SearchEngine.search`: the text path yields scored rows of
the filtered sub-catalog, the no-query path yields plain records. -/
inductive SearchOut where
  | scored : List (ℕ × ℚ) → SearchOut
  | plain : List Product → SearchOut

/-- Embedding of `SearchEngine.search` (lines 61–131): ready guard, filter,
then — for a non-blank query — temporarily swap the index's product table
and term matrix for the filtered subset, run `text_search`, and restore both
fields before returning. -/
def engine_search (sim : List ℚ → List ℚ → ℚ) (e : SearchEngine) (query : String)
    (f : Filters) (top_k : ℕ) : Except String SearchOut × SearchEngine :=
  if e.is_ready = false then
    (.error "Search engine not initialized. Call initialize_from_csv() first.", e)
  else
    match e.index.products with
    | none => (.error "Index not built. Call build_index() first.", e)
    | some ps =>
      let filtered := filter_products ps f
      if filtered.isEmpty then (.ok (.plain []), e)
      else if strip_nonempty query then
        match e.index.vectorizer with
        | none => (.error "TypeError: 'NoneType' object is not callable", e)
        | some vec =>
          let originalProducts := e.index.products
          let originalM := e.index.tfidfMatrix
          let tempM := filtered.map (fun p => vec p.searchText)
          let e1 : SearchEngine :=
            { e with index :=
              { e.index with products := some filtered, tfidfMatrix := some tempM } }
          match index_text_search sim e1.index query top_k with
          | .ok r =>
            let e2 : SearchEngine :=
              { e1 with index :=
                { e1.index with products := originalProducts, tfidfMatrix := originalM } }
            (.ok (.scored r), e2)
          | .error msg => (.error msg, e1)
      else (.ok (.plain (filtered.take top_k)), e)

/-- Embedding of `SearchEngine.get_recommendations`. -/
def engine_get_recommendations (sim : List ℚ → List ℚ → ℚ) (e : SearchEngine)
    (pid top_k : ℕ) : Except String (List (ℕ × Option ℚ)) × SearchEngine :=
  if e.is_ready = false then (.error "Search engine not initialized.", e)
  else (index_get_similar sim e.index pid top_k, e)

/-- Embedding of `SearchEngine.get_product_details`: on success the value is
`none` — not an error — for an unknown `product_id`. -/
def engine_get_product_details (e : SearchEngine) (pid : ℕ) :
    Except String (Option Product) × SearchEngine :=
  if e.is_ready = false then (.error "Search engine not initialized.", e)
  else
    match e.index.products with
    | none => (.error "Index not built. Call build_index() first.", e)
    | some ps => (.ok (get_product_by_id ps pid), e)

/-- Embedding of `SearchEngine.get_trending_products`. -/
def engine_get_trending (e : SearchEngine) (limit : ℕ) :
    Except String (List (ℕ × ℚ)) × SearchEngine :=
  if e.is_ready = false then (.error "Search engine not initialized.", e)
  else
    match e.index.products with
    | none => (.error "Index not built. Call build_index() first.", e)
    | some ps => (.ok (get_trending_products ps limit), e)

/-- Embedding of `SearchEngine.get_categories` (`unique()` keeps first
occurrences in row order). -/
def engine_get_categories (e : SearchEngine) :
    Except String (List String) × SearchEngine :=
  if e.is_ready = false then (.error "Search engine not initialized.", e)
  else
    match e.index.products with
    | none => (.error "TypeError: 'NoneType' object is not subscriptable", e)
    | some ps => (.ok (dedupKeepFirst (ps.map Product.category)), e)

/-- Embedding of `SearchEngine.get_brands`. -/
def engine_get_brands (e : SearchEngine) :
    Except String (List String) × SearchEngine :=
  if e.is_ready = false then (.error "Search engine not initialized.", e)
  else
    match e.index.products with
    | none => (.error "TypeError: 'NoneType' object is not subscriptable", e)
    | some ps => (.ok (dedupKeepFirst (ps.map Product.brandName)), e)

/-- Embedding of `SearchEngine.get_price_ranges`: label-to-count pairs of
`value_counts().to_dict()` (the dictionary's iteration order, which
`value_counts` sorts by descending count, carries no meaning once in a
dict; labels are listed here in first-occurrence order). -/
def engine_get_price_ranges (e : SearchEngine) :
    Except String (List (String × ℕ)) × SearchEngine :=
  if e.is_ready = false then (.error "Search engine not initialized.", e)
  else
    match e.index.products with
    | none => (.error "TypeError: 'NoneType' object is not subscriptable", e)
    | some ps =>
      (.ok ((dedupKeepFirst (ps.map Product.priceRange)).map
        (fun r => (r, (ps.filter (fun p => p.priceRange = r)).length))), e)

/-! ### Taxonomy extraction (claims C3, C4)

`_wb` compiles each alias to a case-insensitive, word-boundary-anchored
pattern: literal words, with runs of `[\s-]+` between words, and — when the
alias does not already end in `s`/`S` and its last word is alphabetic — an
optional plural suffix `(?:e?s)?`.  The per-canonical pattern is the
alternation of its aliases in table order; `finditer` scans left to right,
at each position trying the alternatives in order, and resumes after a
match's end. -/

/-- Python regex `\w` (ASCII): letters, digits, underscore. -/
def isWordChar (c : Char) : Bool := c.isAlphanum || c = '_'

/-- A `[\s-]` separator character. -/
def isSepChar (c : Char) : Bool := c.isWhitespace || c = '-'

/-- Case-insensitive literal prefix match of `w` against `s`. -/
def prefixCI : List Char → List Char → Bool
  | [], _ => true
  | _ :: _, [] => false
  | w :: ws, s :: ss => w.toLower = s.toLower && prefixCI ws ss

/-- A compiled alias: its literal words and whether `_wb` granted the
optional plural suffix. -/
structure AliasPat where
  words : List (List Char)
  plural : Bool

/-- Split a character list on single spaces (`str.split(" ")` on the
single-space-separated aliases of the table). -/
def splitOnSpace : List Char → List (List Char)
  | [] => [[]]
  | ' ' :: rest => [] :: splitOnSpace rest
  | c :: rest =>
    match splitOnSpace rest with
    | w :: ws => (c :: w) :: ws
    | [] => [[c]]

/-- `_wb` (preprocessor.py, lines 332–341): split the alias into words
(spaces become `[\s-]+`), and allow a plural suffix when the alias does not
end in `s`/`S` and the escaped, space-substituted alias is purely
alphabetic.  The source's plural test is `s.split(r"[\\s-]+")[-1].isalpha()`
— a literal `str.split` whose separator (with a doubled backslash) never
occurs in the substituted alias (which contains the single-backslash
`[\s-]+`), so the "last segment" is the whole escaped alias: multi-word
aliases, and single words containing a non-letter (escaping inserts a
backslash), never receive the plural suffix.  Equivalently: only one-word,
all-alphabetic aliases do. -/
def compileAlias (a : String) : AliasPat :=
  let ws := splitOnSpace a.data
  let lastChar := a.data.getLastD ' '
  { words := ws
    plural := !(lastChar == 's' || lastChar == 'S') &&
      (match ws with
       | [w] => w.all Char.isAlpha
       | _ => false) }

/-- Word boundary `\b` before position `i` (the pattern continues with a
word character). -/
def boundaryBefore (t : List Char) (i : ℕ) : Bool :=
  i = 0 || !isWordChar (t.getD (i - 1) ' ')

/-- Word boundary `\b` at position `j` (the pattern just consumed a word
character). -/
def boundaryAfter (t : List Char) (j : ℕ) : Bool :=
  j ≥ t.length || !isWordChar (t.getD j ' ')

/-- Match the alias words from position `pos`: each subsequent word is
preceded by a nonempty separator run (`[\s-]+`, maximal munch — the
following word character can never extend the run).  Returns the position
after the last word. -/
def matchWords (t : List Char) : List (List Char) → ℕ → Bool → Option ℕ
  | [], pos, _ => some pos
  | w :: ws, pos, isFirst =>
    if isFirst then
      if prefixCI w (t.drop pos) then matchWords t ws (pos + w.length) false else none
    else
      let sep := ((t.drop pos).takeWhile isSepChar).length
      if sep = 0 then none
      else if prefixCI w (t.drop (pos + sep)) then
        matchWords t ws (pos + sep + w.length) false
      else none

/-- Match one alias at position `i`: start boundary, the words, then the
greedy plural alternatives `es`, `s`, empty (in that order) each followed by
the end boundary.  Returns the end position of the match. -/
def matchAliasAt (p : AliasPat) (t : List Char) (i : ℕ) : Option ℕ :=
  if ¬boundaryBefore t i then none
  else
    match matchWords t p.words i true with
    | none => none
    | some e =>
      let tries : List (List Char) := if p.plural then [['e', 's'], ['s'], []] else [[]]
      (tries.filter (fun sfx =>
        prefixCI sfx (t.drop e) && boundaryAfter t (e + sfx.length))).head?.map
        (fun sfx => e + sfx.length)

/-- The first alternative of the alias alternation that matches at `i`
(Python regex alternation is first-match, not longest-match). -/
def firstAliasMatch (ps : List AliasPat) (t : List Char) (i : ℕ) : Option ℕ :=
  match ps with
  | [] => none
  | p :: rest =>
    match matchAliasAt p t i with
    | some e => some e
    | none => firstAliasMatch rest t i

/-- `finditer` over one canonical's pattern: scan positions left to right,
emit non-overlapping spans, resume after each match.  Fuel bounds the scan
(each step advances the position by at least one). -/
def scanAliasesAux (ps : List AliasPat) (t : List Char) : ℕ → ℕ → List (ℕ × ℕ)
  | _, 0 => []
  | pos, fuel + 1 =>
    if pos ≥ t.length then []
    else
      match firstAliasMatch ps t pos with
      | some e => (pos, e) :: scanAliasesAux ps t e fuel
      | none => scanAliasesAux ps t (pos + 1) fuel

/-- All match spans of one canonical's alias alternation in `t`. -/
def scanAliases (ps : List AliasPat) (t : List Char) : List (ℕ × ℕ) :=
  scanAliasesAux ps t 0 (t.length + 1)

/-- Step 1 of `_extract_product_type`: every `(canonical, span)` candidate,
canonicals in taxonomy table order (matched substrings, which the code also
records, play no further role). -/
def findCandidates (tax : List (String × List String)) (t : List Char) :
    List (String × ℕ × ℕ) :=
  (tax.map (fun ca =>
    (scanAliases (ca.2.map compileAlias) t).map (fun sp => (ca.1, sp)))).flatten

/-- Step 2's sort key, as a `≤` relation: longest match first, then earliest
start, then canonical name.  No two distinct candidates share all three key
components, so the Python sort's stability is immaterial. -/
def CandLe (x y : String × ℕ × ℕ) : Prop :=
  x.2.2 - x.2.1 > y.2.2 - y.2.1 ∨
    (x.2.2 - x.2.1 = y.2.2 - y.2.1 ∧
      (x.2.1 < y.2.1 ∨ (x.2.1 = y.2.1 ∧ x.1 ≤ y.1)))

instance : DecidableRel CandLe := fun x y => by
  unfold CandLe; infer_instance

/-- Step 3: greedy overlap resolution — accept a candidate only when its
span overlaps no already-occupied span; returns the accepted candidates in
acceptance order. -/
def resolveOverlaps : List (String × ℕ × ℕ) → List (ℕ × ℕ) → List (String × ℕ × ℕ)
  | [], _ => []
  | (canon, a, b) :: rest, occupied =>
    if occupied.any (fun o => ¬(b ≤ o.1 ∨ a ≥ o.2)) then
      resolveOverlaps rest occupied
    else
      (canon, a, b) :: resolveOverlaps rest (occupied ++ [(a, b)])

/-- Fuel-driven scan for `re.sub(r"\s+", " ", ·)`; each step consumes at
least one character, so fuel equal to the text length never runs out. -/
def collapseWSAux : ℕ → List Char → List Char
  | 0, _ => []
  | _ + 1, [] => []
  | fuel + 1, c :: rest =>
    if c.isWhitespace then ' ' :: collapseWSAux fuel (rest.dropWhile Char.isWhitespace)
    else c :: collapseWSAux fuel rest

/-- `re.sub(r"\s+", " ", ·)`: collapse whitespace runs to single spaces. -/
def collapseWS (cs : List Char) : List Char := collapseWSAux cs.length cs

/-- Boolean infix test on character lists (Python `needle in hay`). -/
def hasInfix (hay needle : List Char) : Bool :=
  (List.range (hay.length + 1)).any (fun i => needle.isPrefixOf (hay.drop i))

/-- The normalized phrase-test text of `_post_rules` and
`_extract_product_type`: lower-cased, whitespace collapsed, padded with one
space on each side. -/
def padNorm (text : String) : List Char :=
  ' ' :: (collapseWS (text.data.map Char.toLower) ++ [' '])

/-- Python `set.add` under the insertion-order list model. -/
def setAdd (l : List String) (x : String) : List String :=
  if x ∈ l then l else l ++ [x]

def bottomsLabels : List String :=
  ["salwar", "palazzo", "trousers", "leggings", "pants", "dhoti pants", "sharara"]

def specificFootwear : List String :=
  ["heels", "wedges", "sandals", "boots", "sneakers", "peep toes", "mules",
    "loafers", "platforms", "clogs", "slides", "floaters", "bellies", "brogues"]

def genericFootwear : List String := ["slip-ons", "shoes", "flats"]

/-- Rule 1 of `_post_rules`: tracksuit vs track pants. -/
def ruleTracksuit (t : List Char) (L : List String) : List String :=
  if hasInfix t " tracksuit ".data ∨ hasInfix t " track suit ".data then
    setAdd (L.erase "track pants") "tracksuit"
  else L

/-- Rule 2 of `_post_rules`: the denim-jacket guard for `jeans`. -/
def ruleDenim (t : List Char) (L : List String) : List String :=
  if hasInfix t " denim jacket ".data then L.erase "jeans" else L

/-- Rule 3 of `_post_rules`: the kurta-set collapse. -/
def ruleKurta (L : List String) : List String :=
  if "kurta" ∈ L ∧ ("dupatta" ∈ L ∨ "choli" ∈ L) ∧ L.inter bottomsLabels ≠ [] then
    setAdd
      (L.filter (fun x =>
        ¬(x = "kurta" ∨ x = "dupatta" ∨ x = "choli" ∨ x ∈ bottomsLabels)))
      "salwar suit"
  else if "kurta" ∈ L ∧ L.inter bottomsLabels ≠ [] then setAdd L "ethnic set"
  else L

/-- Rule 4 of `_post_rules`: footwear specificity. -/
def ruleFootwear (L : List String) : List String :=
  if L.inter specificFootwear ≠ [] then L.filter (fun x => x ∉ genericFootwear)
  else L

/-- Rule 5 of `_post_rules`: necklace/pendant de-duplication. -/
def ruleNecklace (L : List String) : List String :=
  if "necklace" ∈ L ∧ "pendant" ∈ L then L.erase "pendant" else L

/-- The label-set transformation of `_post_rules` (lines 500–548): the five
disambiguation rules applied in order to the working set
`L = set(labels)`, under the insertion-order set model. -/
def adjustedLabelSet (text : String) (labels : List String) : List String :=
  ruleNecklace (ruleFootwear (ruleKurta
    (ruleDenim (padNorm text) (ruleTracksuit (padNorm text) (dedupKeepFirst labels)))))

/-- Embedding of `_post_rules` (lines 549–556 for the ordering part): kept
labels in input order, newly added labels appended, both deduplicated
through the `seen` set. -/
def post_rules (text : String) (labels : List String) : List String :=
  let L := adjustedLabelSet text labels
  let ordered := labels.foldl
    (fun acc x => if x ∈ L ∧ x ∉ acc then acc ++ [x] else acc) []
  L.foldl (fun acc x => if x ∉ acc then acc ++ [x] else acc) ordered

/-- The candidate list of `_extract_product_type` after the step-2 sort. -/
def sortedCandidates (tax : List (String × List String)) (text : String) :
    List (String × ℕ × ℕ) :=
  List.insertionSort CandLe (findCandidates tax text.data)

/-- The label list handed to `_post_rules`: `list(set(picked))` under the
insertion-order set model, after the tracksuit / denim-jacket tweaks that
`_extract_product_type` itself performs (lines 577–585). -/
def labelsBefore (tax : List (String × List String)) (text : String) : List String :=
  let picked := (resolveOverlaps (sortedCandidates tax text) []).map (fun c => c.1)
  let t := padNorm text
  let labels := dedupKeepFirst picked
  let labels :=
    if hasInfix t " track suit ".data ∨ hasInfix t " tracksuit ".data then
      setAdd (labels.erase "track pants") "tracksuit"
    else labels
  if hasInfix t " denim jacket ".data then labels.erase "jeans" else labels

/-- Embedding of `DataPreprocessor._extract_product_type` (lines 558–587). -/
def extract_product_type (tax : List (String × List String)) (text : String) :
    List String :=
  post_rules text (labelsBefore tax text)

/-- The `TAXONOMY` table of preprocessor.py (lines 206–329), verbatim, in
source (dict-insertion) order. -/
def TAXONOMY : List (String × List String) := [
  ("blazer", ["blazer", "notched lapel", "lapel blazer"]),
  ("coat", ["coat", "overcoat", "trench coat", "peacoat", "pea coat"]),
  ("poncho/cape", ["poncho", "cape"]),
  ("jacket", ["jacket", "bomber", "puffer", "denim jacket", "biker jacket"]),
  ("sweatshirt", ["sweatshirt", "sweat shirt", "crew neck fleece", "zip-up hoodie", "zip through"]),
  ("hoodie", ["hoodie"]),
  ("co-ord set", ["co-ord", "co ord", "coordinate set", "co-ordinates"]),
  ("western set", ["evening wear set", "women\x27s set", "womens set"]),
  ("ethnic set", ["suit set", "indian wear set", "kurta set", "straight suit set", "ethnic set", "clothing set", "coordinate set"]),
  ("dress", ["dress"]),
  ("gown", ["gown", "maxi"]),
  ("jumpsuit", ["jump suit", "jumpsuit"]),
  ("romper", ["romper", "playsuit"]),
  ("kaftan", ["kaftan"]),
  ("dungarees", ["dungarees", "overalls"]),
  ("top", ["top", "camisole", "tank", "crop top", "bodysuit"]),
  ("tshirt", ["t-shirt", "tshirt", "tee"]),
  ("shirt", ["shirt", "button down", "button-down", "oxford"]),
  ("blouse", ["blouse"]),
  ("sweater", ["sweater", "pullover", "jumper"]),
  ("cardigan", ["cardigan", "shrug"]),
  ("kurta", ["kurta", "kurti"]),
  ("tunic", ["tunic"]),
  ("pants", ["pant", "pants", "chino", "chinos", "formal pants", "casual pants", "paper bag pants"]),
  ("trousers", ["trouser", "trousers"]),
  ("track pants", ["track pants", "trackpants", "tracks"]),
  ("joggers", ["jogger", "joggers", "jogger pants", "jogger fit"]),
  ("leggings", ["legging", "leggings", "churidar"]),
  ("tights", ["tight", "tights"]),
  ("jeggings", ["jeggings", "denim leggings"]),
  ("treggings", ["treggings"]),
  ("jeans", ["jean", "jeans", "denim"]),
  ("shorts", ["shorts", "hot pant", "hot pants"]),
  ("capris", ["capri", "capris"]),
  ("culottes", ["culottes"]),
  ("palazzo", ["palazzo"]),
  ("dhoti pants", ["dhoti pant", "dhoti pants"]),
  ("skirt", ["skirt", "maxi skirt"]),
  ("thermal pants", ["thermal pant", "thermal pants", "thermal bottoms", "thermal leggings"]),
  ("saree", ["sari", "saree"]),
  ("lehenga", ["lehenga"]),
  ("salwar", ["salwar", "shalwar"]),
  ("salwar suit", ["salwar suit", "unstitched suit"]),
  ("choli", ["choli"]),
  ("dupatta", ["dupatta"]),
  ("sharara", ["sharara"]),
  ("festive set", ["festive set"]),
  ("pyjamas", ["pyjama", "pyjamas", "pajama", "pajamas"]),
  ("nightdress", ["night dress", "nightdress", "nighty", "nightie"]),
  ("sleep set", ["sleep set", "lounge set"]),
  ("lounge pants", ["lounge pant", "lounge pants"]),
  ("tracksuit", ["track suit", "tracksuit"]),
  ("robe", ["robe"]),
  ("chemise", ["chemise"]),
  ("babydoll", ["baby doll", "babydoll"]),
  ("sleepsuit", ["sleepsuit", "sleep suit"]),
  ("monokini", ["monokini"]),
  ("swim set", ["swim set"]),
  ("shapewear", ["shapewear", "tummy tucker", "tummy control", "thigh slimmer", "waist cincher", "hi waist slimmer"]),
  ("handbag", ["handbag", "hand bag"]),
  ("wallet", ["wallet"]),
  ("clutch", ["clutch"]),
  ("backpack", ["backpack", "back pack"]),
  ("tote", ["tote"]),
  ("belt", ["belt"]),
  ("slides", ["slides", "slide"]),
  ("loafers", ["loafers", "loafer"]),
  ("mules", ["mules", "mule"]),
  ("wedges", ["wedges", "wedge"]),
  ("platforms", ["platforms", "platform"]),
  ("brogues", ["brogues", "oxford", "oxfords"]),
  ("bellies", ["bellies", "ballet flats", "ballet flat"]),
  ("peep toes", ["peep toes", "peep toe"]),
  ("clogs", ["clogs", "clog"]),
  ("floaters", ["floaters", "floater"]),
  ("slip-ons", ["slip-ons", "slip ons", "slip on"]),
  ("shoes", ["shoes", "shoe"]),
  ("heels", ["heels", "heel", "stiletto", "stilettos", "pump", "pumps"]),
  ("flats", ["flats", "flat", "ballerina", "ballerinas"]),
  ("boots", ["boots", "boot"]),
  ("sandals", ["sandals", "sandal"]),
  ("sneakers", ["sneakers", "sneaker", "trainers", "trainer"]),
  ("slippers", ["slippers", "slipper", "flip flops", "flip-flops", "flip flop"]),
  ("bracelet", ["bracelet"]),
  ("necklace", ["necklace"]),
  ("earrings", ["earring", "earrings", "stud", "studs", "jhumka", "jhumki", "jhumkas", "jhumkis"]),
  ("ring", ["ring", "rings"]),
  ("pendant", ["pendant"]),
  ("bangle", ["bangle", "kada", "kadas", "bangles"]),
  ("bralette", ["bralette"]),
  ("bra", ["bra", "brassiere"]),
  ("panties", ["panty", "panties", "briefs", "knickers", "thong", "thongs", "hipster", "hipsters"]),
  ("lingerie", ["lingerie", "intimates"]),
  ("scarf", ["scarf", "scarves"]),
  ("stole", ["stole", "stoles"]),
  ("muffler", ["muffler", "mufflers"]),
  ("cap", ["cap", "baseball cap", "caps"]),
  ("face mask", ["face mask", "mask", "n95", "reusable mask"]),
  ("socks", ["sock", "socks", "no show socks", "ankle socks"]),
  ("thermal", ["thermal", "thermals"])]

/-- Ascending-start order on candidates: the "first-discovered in the text"
order that claim C3 asserts for kept labels. -/
def StartLe (x y : String × ℕ × ℕ) : Prop :=
  x.2.1 < y.2.1 ∨ (x.2.1 = y.2.1 ∧ x.1 ≤ y.1)

instance : DecidableRel StartLe := fun x y => by
  unfold StartLe; infer_instance

/-- The extraction output as claim C3 describes it: kept labels in
first-discovered (earliest match start) order, newly added labels appended
at the end. -/
def extract_claimed (tax : List (String × List String)) (text : String) :
    List String :=
  let accepted := resolveOverlaps (sortedCandidates tax text) []
  let discovered :=
    dedupKeepFirst ((List.insertionSort StartLe accepted).map (fun c => c.1))
  let L := adjustedLabelSet text (labelsBefore tax text)
  let kept := discovered.filter (fun x => x ∈ L)
  kept ++ L.filter (fun x => x ∉ kept)

/-- An uninitialized engine. -/
def notReadyEngine : SearchEngine := ⟨⟨none, none, none⟩, false⟩

/-- A concrete one-product ready engine shared by the facade witnesses. -/
def readyEngine : SearchEngine :=
  ⟨⟨some [⟨0, "Western Wear", "zara", some 10, some 50, some "cotton",
      ["M"], "mid-range", "zara red dress western wear"⟩],
    some [[1]], some (fun _ => [1])⟩, true⟩

/-! ## Claim C6 — price_range thresholds -/

/-- C6: `price_range` is a pure deterministic function of `sell_price` with
thresholds 5/15/30 — below 5 `budget`, in `[5,15)` `mid-range`, in `[15,30)`
`premium`, at least 30 `luxury`, missing `unknown` — and the two
implementations (`_price_bucket` and `categorize_price_range`) agree;
in particular 4.99 is budget, 5.00 and 14.99 mid-range, 15.00 and 29.99
premium, 30.00 luxury. -/
theorem price_range_thresholds :
    (∀ p : Option ℚ, price_bucket p = categorize_price_range p) ∧
    price_bucket none = "unknown" ∧
    (∀ q : ℚ, q < 5 → price_bucket (some q) = "budget") ∧
    (∀ q : ℚ, 5 ≤ q → q < 15 → price_bucket (some q) = "mid-range") ∧
    (∀ q : ℚ, 15 ≤ q → q < 30 → price_bucket (some q) = "premium") ∧
    (∀ q : ℚ, 30 ≤ q → price_bucket (some q) = "luxury") ∧
    price_bucket (some (499 / 100)) = "budget" ∧
    price_bucket (some 5) = "mid-range" ∧
    price_bucket (some (1499 / 100)) = "mid-range" ∧
    price_bucket (some 15) = "premium" ∧
    price_bucket (some (2999 / 100)) = "premium" ∧
    price_bucket (some 30) = "luxury" := by
  refine ⟨fun p => rfl, rfl, ?_, ?_, ?_, ?_, ?_, ?_, ?_, ?_, ?_, ?_⟩
  · intro q h; simp [price_bucket, h]
  · intro q h₁ h₂
    simp only [price_bucket]
    rw [if_neg (by linarith), if_pos h₂]
  · intro q h₁ h₂
    simp only [price_bucket]
    rw [if_neg (by linarith), if_neg (by linarith), if_pos h₂]
  · intro q h₁
    simp only [price_bucket]
    rw [if_neg (by linarith), if_neg (by linarith), if_neg (by linarith)]
  all_goals norm_num [price_bucket]

/-- Witness for C6: the threshold clauses applied at 4.99 and 29.99. -/
theorem price_range_thresholds_witness :
    price_bucket (some (499 / 100)) = "budget" ∧
    price_bucket (some (2999 / 100)) = "premium" :=
  ⟨price_range_thresholds.2.2.1 (499 / 100) (by norm_num),
   price_range_thresholds.2.2.2.2.1 (2999 / 100) (by norm_num) (by norm_num)⟩

/-! ## Claim C5 — sell-price normalization and backfill -/

/-- C5: after normalization the sell price equals the parsed raw sell price
times the currency rate rounded to 2 decimals; an unparseable raw sell price
is backfilled with the converted list price (MRP); and every record retained
by `process` has a present `sell_price`. -/
theorem sell_price_normalization (rate : ℚ) (mrpRaw sellRaw : String)
    (rows : List (String × String)) :
    (∀ v, parsePrice sellRaw = some v →
      (clean_prices rate mrpRaw sellRaw).2 = some (round2 (v * rate))) ∧
    (parsePrice sellRaw = none →
      (clean_prices rate mrpRaw sellRaw).2 =
        (parsePrice mrpRaw).map (fun v => round2 (v * rate))) ∧
    (∀ r ∈ processPrices rate rows, r.2.isSome = true) := by
  refine ⟨?_, ?_, ?_⟩
  · intro v hv
    simp [clean_prices, hv]
  · intro h
    simp [clean_prices, h]
  · intro r hr
    exact (List.mem_filter.mp hr).2

/-- Witness for C5: a parsing sell price (`"Rs. 1,299"`, with currency
marker and thousands separator) converts and rounds; an unparseable one
(`"two"`) backfills from MRP. -/
theorem sell_price_normalization_witness :
    (clean_prices (19 / 2000) "Rs. 2,000" "Rs. 1,299").2 =
      some (round2 (1299 * (19 / 2000))) ∧
    (clean_prices (19 / 2000) "Rs. 2,000" "two").2 =
      (parsePrice "Rs. 2,000").map (fun v => round2 (v * (19 / 2000))) :=
  ⟨(sell_price_normalization (19 / 2000) "Rs. 2,000" "Rs. 1,299" []).1 1299 (by decide),
   (sell_price_normalization (19 / 2000) "Rs. 2,000" "two" []).2.1 (by decide)⟩

/-! ## Claim C7 — precondition guard on the whole query surface -/

/-- C7: every query-surface operation invoked before the engine is ready
returns a precondition error and leaves the engine state unchanged. -/
theorem query_surface_precondition (sim : List ℚ → List ℚ → ℚ) (e : SearchEngine)
    (q : String) (f : Filters) (k pid limit : ℕ) (h : e.is_ready = false) :
    engine_search sim e q f k =
      (.error "Search engine not initialized. Call initialize_from_csv() first.", e) ∧
    engine_get_recommendations sim e pid k =
      (.error "Search engine not initialized.", e) ∧
    engine_get_product_details e pid = (.error "Search engine not initialized.", e) ∧
    engine_get_trending e limit = (.error "Search engine not initialized.", e) ∧
    engine_get_categories e = (.error "Search engine not initialized.", e) ∧
    engine_get_brands e = (.error "Search engine not initialized.", e) ∧
    engine_get_price_ranges e = (.error "Search engine not initialized.", e) := by
  refine ⟨?_, ?_, ?_, ?_, ?_, ?_, ?_⟩ <;>
    simp [engine_search, engine_get_recommendations, engine_get_product_details,
      engine_get_trending, engine_get_categories, engine_get_brands,
      engine_get_price_ranges, h]

/-- Witness for C7: the guard fires on a concrete uninitialized engine. -/
theorem query_surface_precondition_witness :
    engine_get_trending notReadyEngine 5 =
      (.error "Search engine not initialized.", notReadyEngine) :=
  (query_surface_precondition (fun _ _ => 0) notReadyEngine "dress"
    ⟨none, none, none, none, none, none, none⟩ 5 3 5 rfl).2.2.2.1

/-! ## Claim C10 — search restores the swapped index state -/

/-- C10: on normal return of `search` with a non-blank query, the index's
product table and term matrix — temporarily swapped for the filtered subset —
are restored, so the engine state equals its pre-call state. -/
theorem search_restores_index (sim : List ℚ → List ℚ → ℚ) (e : SearchEngine)
    (q : String) (f : Filters) (k : ℕ)
    (hready : e.is_ready = true) (hq : strip_nonempty q = true) :
    (engine_search sim e q f k).2 = e := by
  rcases e with ⟨⟨ps, M, vec⟩, r⟩
  subst hready
  cases ps with
  | none => simp [engine_search]
  | some ps =>
    by_cases hemp : (filter_products ps f).isEmpty
    · simp [engine_search, hemp]
    · cases vec with
      | none => simp [engine_search, hemp, hq]
      | some v => simp [engine_search, hemp, hq, index_text_search]

/-- Witness for C10: a concrete filtered text search leaves the concrete
engine unchanged. -/
theorem search_restores_index_witness :
    (engine_search (fun _ _ => 1) readyEngine "dress"
      ⟨none, none, none, none, none, none, none⟩ 5).2 = readyEngine :=
  search_restores_index (fun _ _ => 1) readyEngine "dress"
    ⟨none, none, none, none, none, none, none⟩ 5 rfl (by decide)

/-! ## Claim C8 — unknown product_id: recommend vs detail lookup -/

/-- C8 as stated is false: the detail lookup returns `None` for an unknown
`product_id` instead of signalling a not-found error.  On a concrete ready
engine whose only product has id 0, `get_product_details 99` succeeds with
value `none` and signals no error of any kind. -/
theorem detail_lookup_not_found_counterexample :
    (engine_get_product_details readyEngine 99).1 = Except.ok none ∧
    ¬∃ msg, (engine_get_product_details readyEngine 99).1 = Except.error msg := by
  constructor
  · rfl
  · rintro ⟨msg, hmsg⟩
    rw [show (engine_get_product_details readyEngine 99).1 = Except.ok none from rfl]
      at hmsg
    exact Except.noConfusion hmsg

/-- C8 as amended: for a ready engine whose catalog does not contain
`product_id`, the recommend lookup raises a not-found `ValueError` whose
message differs from every precondition message, while the detail lookup
returns `none` without error. -/
theorem unknown_product_id_handling (sim : List ℚ → List ℚ → ℚ) (e : SearchEngine)
    (ps : List Product) (pid k : ℕ)
    (hready : e.is_ready = true) (hps : e.index.products = some ps)
    (hmiss : ∀ p ∈ ps, p.product_id ≠ pid) :
    engine_get_recommendations sim e pid k =
      (.error s!"Product with ID {pid} not found", e) ∧
    s!"Product with ID {pid} not found" ≠ "Search engine not initialized." ∧
    s!"Product with ID {pid} not found" ≠
      "Index not built. Call build_index() first." ∧
    engine_get_product_details e pid = (.ok none, e) := by
  have hfind : ps.findIdx? (fun p => p.product_id == pid) = none := by
    rw [List.findIdx?_eq_none_iff]
    intro p hp
    simpa using hmiss p hp
  have hfindp : ps.find? (fun p => p.product_id == pid) = none := by
    rw [List.find?_eq_none]
    intro p hp
    simpa using hmiss p hp
  refine ⟨?_, ?_, ?_, ?_⟩
  · simp [engine_get_recommendations, index_get_similar, hready, hps, hfind]
  · intro h
    have h2 := congrArg (fun s => s.data.head?) h
    simp [String.data_append] at h2
    exact absurd h2 (by decide)
  · intro h
    have h2 := congrArg (fun s => s.data.head?) h
    simp [String.data_append] at h2
    exact absurd h2 (by decide)
  · simp [engine_get_product_details, get_product_by_id, hready, hps, hfindp]

/-- Witness for C8 as amended, on the concrete one-product engine with the
unknown id 99. -/
theorem unknown_product_id_handling_witness :
    engine_get_recommendations (fun _ _ => 1) readyEngine 99 5 =
      (.error s!"Product with ID {(99 : ℕ)} not found", readyEngine) ∧
    engine_get_product_details readyEngine 99 = (.ok none, readyEngine) :=
  ⟨(unknown_product_id_handling (fun _ _ => 1) readyEngine _ 99 5 rfl rfl
      (by decide)).1,
   (unknown_product_id_handling (fun _ _ => 1) readyEngine _ 99 5 rfl rfl
      (by decide)).2.2.2⟩

/-! ## Claim C2 — text_search ranking -/

/-- C2 as stated is false on ties: with two documents of equal positive
similarity — realized, e.g., by two identical documents with the query equal
to their text, giving both cosine similarity 1 — `text_search` returns the
*later* row first, because the ascending `argsort` breaks ties in row order
and the `[::-1]` reversal flips them; the claim's stable descending ranking
puts the earlier row first. -/
theorem text_search_tie_counterexample :
    text_search_core [1, 1] 2 = [(1, 1), (0, 1)] ∧
    text_search_claimed [1, 1] 2 = [(0, 1), (1, 1)] ∧
    text_search_core [1, 1] 2 ≠ text_search_claimed [1, 1] 2 :=
  ⟨by decide, by decide, by decide⟩

/-- C2 as amended: for `top_k ≥ 1`, `text_search` returns the `top_k`
highest-similarity documents restricted to strictly positive similarity with
ties broken by *descending* row order (the reversal of the stable ascending
argsort); and when every similarity is 0 — as for a query whose terms appear
in no document, whose transform is the zero vector and whose cosine
similarity against every document sklearn defines as 0 — the result is
empty. -/
theorem text_search_ranking (sims : List ℚ) (top_k : ℕ) (hk : 1 ≤ top_k) :
    text_search_core sims top_k = text_search_ranked sims top_k ∧
    ((∀ x ∈ sims, x = 0) → text_search_core sims top_k = []) := by
  have hkne : ¬(top_k = 0) := by omega
  have hmono : ∀ a b, DescLexRev sims a b →
      posFilter sims b = true → posFilter sims a = true := by
    intro a b hab hb
    simp only [posFilter, decide_eq_true_eq] at *
    rcases hab with h | ⟨h, _⟩
    · linarith
    · rw [h]; exact hb
  have hsorted : (rankDesc sims).Pairwise (DescLexRev sims) :=
    List.sorted_insertionSort _ _
  have hcomm := take_filter_comm (posFilter sims) (DescLexRev sims)
    (rankDesc sims) hsorted (fun a _ b _ => hmono a b) top_k
  have horder : ((argsortAsc sims).drop ((argsortAsc sims).length - top_k)).reverse
      = (rankDesc sims).take top_k := by
    rw [drop_reverse_eq_take, argsortAsc_reverse]
  constructor
  · simp only [text_search_core, text_search_ranked, hkne, ite_false, if_false]
    rw [horder, hcomm]
  · intro hz
    have hval : ∀ i, posFilter sims i = false := by
      intro i
      simp only [posFilter, val, decide_eq_false_iff_not, not_lt]
      rw [List.getD_eq_getElem?_getD]
      rcases h : sims[i]? with _ | x
      · simp
      · have hx : x ∈ sims := List.getElem?_mem h
        simp [hz x hx]
    unfold text_search_core
    simp [hval]

/-- Witness for C2 as amended: the two conjuncts applied at concrete
similarity vectors (`[1/2, 1]` with `top_k = 1`, and the all-zero `[0, 0]`). -/
theorem text_search_ranking_witness :
    text_search_core [1 / 2, 1] 1 = text_search_ranked [1 / 2, 1] 1 ∧
    text_search_core [0, 0] 3 = [] :=
  ⟨(text_search_ranking [1 / 2, 1] 1 (by norm_num)).1,
   (text_search_ranking [0, 0] 3 (by norm_num)).2 (by norm_num)⟩

/-! ## Claim C1 — the recommender and its own reference product -/

/-- C1 as stated is false when `top_k` reaches the catalog size: the code
zeroes the reference's combined score but never filters zero scores out, so
`argsort()[-top_k:][::-1]` returns the reference itself (with score 0) once
fewer than `top_k` rows outscore it.  Concretely: a two-product catalog
(ids 10 and 20, same category, same price, text similarities 1 and 1/2),
reference id 10 at row 0, `top_k = 2` — the result contains row 0, the
reference product. -/
theorem get_similar_includes_ref_counterexample :
    get_similar_products
      [⟨10, "X", "b", some 5, none, none, [], "", ""⟩,
        ⟨20, "X", "b", some 5, none, none, [], "", ""⟩]
      [1, 1 / 2] 10 2 = .ok [(1, some (7 / 10)), (0, some 0)] ∧
    (0 : ℕ) ∈ ([(1, some (7 / 10)), (0, some 0)] : List (ℕ × Option ℚ)).map Prod.fst := by
  constructor
  · have hf : List.findIdx? (fun p => p.product_id == 10)
        [(⟨10, "X", "b", some 5, none, none, [], "", ""⟩ : Product),
          ⟨20, "X", "b", some 5, none, none, [], "", ""⟩] = some 0 := by decide
    have hps : priceSimilarities
        [(⟨10, "X", "b", some 5, none, none, [], "", ""⟩ : Product),
          ⟨20, "X", "b", some 5, none, none, [], "", ""⟩] 0
        = [some 1, some 1] := by
      norm_num [priceSimilarities, optAbsSub, skipnaMax,
        show (List.replicate 2 (some (1 : ℚ))) = [some 1, some 1] from rfl]
    have hc : combinedScores
        [⟨10, "X", "b", some 5, none, none, [], "", ""⟩,
          ⟨20, "X", "b", some 5, none, none, [], "", ""⟩] [1, 1 / 2] 0
        = [some 0, some (7 / 10)] := by
      norm_num [combinedScores, hps, val, show List.range 2 = [0, 1] from rfl]
    norm_num [get_similar_products, hf, hc, argsortAscO, valO, AscLexO, optLtb]
  · decide

theorem priceSimilarities_getD_ne_none (ps : List Product) (refIdx i : ℕ)
    (hprice : ∀ p ∈ ps, p.sellPrice ≠ none)
    (hreflt : refIdx < ps.length) (hi : i < ps.length) :
    (priceSimilarities ps refIdx).getD i none ≠ none := by
  have hrefmem : ps[refIdx] ∈ ps := List.getElem_mem hreflt
  obtain ⟨b, hb⟩ : ∃ b, (ps[refIdx]).sellPrice = some b := by
    rcases h : (ps[refIdx]).sellPrice with _ | b
    · exact absurd h (hprice _ hrefmem)
    · exact ⟨b, rfl⟩
  have himem : ps[i] ∈ ps := List.getElem_mem hi
  obtain ⟨a, ha⟩ : ∃ a, (ps[i]).sellPrice = some a := by
    rcases h : (ps[i]).sellPrice with _ | a
    · exact absurd h (hprice _ himem)
    · exact ⟨a, rfl⟩
  simp only [priceSimilarities]
  split
  · rw [List.getD_eq_getElem?_getD, List.getElem?_map, List.getElem?_map,
      List.getElem?_eq_getElem hi]
    simp [optAbsSub, ha, hb, List.getD_eq_getElem?_getD,
      List.getElem?_eq_getElem hreflt]
  · rw [List.getD_eq_getElem?_getD, List.getElem?_replicate]
    simp [hi]

theorem combinedScores_ne_none (ps : List Product) (textSims : List ℚ)
    (refIdx : ℕ) (hprice : ∀ p ∈ ps, p.sellPrice ≠ none)
    (hreflt : refIdx < ps.length) :
    ∀ s ∈ combinedScores ps textSims refIdx, s ≠ none := by
  intro s hs
  simp only [combinedScores] at hs
  rcases List.mem_or_eq_of_mem_set hs with hs | rfl
  · rcases List.mem_map.mp hs with ⟨i, hi, rfl⟩
    have hilt : i < ps.length := List.mem_range.mp hi
    have hp := priceSimilarities_getD_ne_none ps refIdx i hprice hreflt hilt
    cases h : (priceSimilarities ps refIdx).getD i none with
    | none => exact absurd h hp
    | some pr => simp [h]
  · simp

/-- C1 as amended: the reference's combined score is forced to 0 before
ranking, and the returned list excludes the reference provided `top_k ≥ 1`,
every catalog row has a present `SellPrice_numeric`, and at least `top_k`
rows have strictly positive combined score (the reference, scored 0, is not
among them).  Each proviso is needed: with fewer positively-scoring rows
than `top_k` — or with `top_k = 0`, whose slice `[-0:]` selects every row —
the reference can appear, as the counterexample shows; and a row with a
missing price gets a NaN combined score, which the reversed argsort places
in front of everything, again letting the reference into the slice. -/
theorem get_similar_excludes_ref (ps : List Product) (textSims : List ℚ)
    (pid top_k refIdx : ℕ) (hk : 1 ≤ top_k)
    (href : List.findIdx? (fun p => p.product_id == pid) ps = some refIdx)
    (hprice : ∀ p ∈ ps, p.sellPrice ≠ none)
    (hpos : top_k ≤ ((List.range ps.length).filter
      (posFilterO (combinedScores ps textSims refIdx))).length) :
    ∃ res, get_similar_products ps textSims pid top_k = .ok res ∧
      refIdx ∉ res.map Prod.fst := by
  have hkne : ¬(top_k = 0) := by omega
  set cs := combinedScores ps textSims refIdx with hcs
  have hlen : cs.length = ps.length := by
    simp [hcs, combinedScores]
  have hreflt : refIdx < ps.length :=
    (List.findIdx?_eq_some_iff_findIdx_eq.mp href).1
  have hall_some : ∀ s ∈ cs, s ≠ none :=
    combinedScores_ne_none ps textSims refIdx hprice hreflt
  have horder : ((argsortAscO cs).drop ((argsortAscO cs).length - top_k)).reverse
      = (rankDescO cs).take top_k := by
    rw [drop_reverse_eq_take, argsortAscO_reverse]
  refine ⟨((rankDescO cs).take top_k).map (fun i => (i, valO cs i)), ?_, ?_⟩
  · unfold get_similar_products
    rw [href]
    simp only [hkne, ite_false, if_false]
    rw [← hcs, horder]
  · intro hmem
    have hmem2 : refIdx ∈ (rankDescO cs).take top_k := by
      simpa [List.map_map, Function.comp_def] using hmem
    have hsome : ∀ a ∈ rankDescO cs, ∃ x, valO cs a = some x := by
      intro a hma
      have haidx : a < cs.length := List.mem_range.mp
        ((List.perm_insertionSort (DescLexRevO cs) (List.range cs.length)).mem_iff.mp hma)
      have hva : valO cs a ∈ cs := by
        unfold valO
        rw [List.getD_eq_getElem?_getD, List.getElem?_eq_getElem haidx]
        exact List.getElem_mem haidx
      rcases h : valO cs a with _ | x
      · exact absurd (h ▸ hva) (fun hmem => hall_some none hmem rfl)
      · exact ⟨x, rfl⟩
    have hmono : ∀ a ∈ rankDescO cs, ∀ b ∈ rankDescO cs, DescLexRevO cs a b →
        posFilterO cs b = true → posFilterO cs a = true := by
      intro a hma b hmb hab hb
      obtain ⟨x, hx⟩ := hsome a hma
      obtain ⟨y, hy⟩ := hsome b hmb
      unfold posFilterO at hb ⊢
      rw [hy] at hb
      rw [hx]
      simp only [decide_eq_true_eq] at hb ⊢
      rcases hab with h | ⟨h, _⟩
      · rw [hy, hx] at h
        simp only [optLtb, decide_eq_true_eq] at h
        linarith
      · rw [hx, hy] at h
        injection h with h
        rw [h]
        exact hb
    have hsorted : (rankDescO cs).Pairwise (DescLexRevO cs) :=
      List.sorted_insertionSort _ _
    have hperm : List.Perm ((rankDescO cs).filter (posFilterO cs))
        ((List.range cs.length).filter (posFilterO cs)) :=
      List.Perm.filter _ (List.perm_insertionSort _ _)
    have hk2 : top_k ≤ ((rankDescO cs).filter (posFilterO cs)).length := by
      rw [hperm.length_eq, hlen]
      exact hpos
    have hall := take_all_sat (posFilterO cs) (DescLexRevO cs)
      (rankDescO cs) hsorted hmono top_k hk2 refIdx hmem2
    have hzero : valO cs refIdx = some 0 := by
      simp only [hcs, combinedScores, valO]
      rw [List.getD_eq_getElem?_getD, List.getElem?_set_self (by simpa using hreflt)]
      rfl
    unfold posFilterO at hall
    rw [hzero] at hall
    simp at hall

/-- Witness for C1 as amended: three products (ids 10, 20, 30, reference
id 10, all prices present), text similarities `[1, 1/2, 1/4]`, `top_k = 2`:
both non-reference rows score positively, so the reference row 0 is
excluded. -/
theorem get_similar_excludes_ref_witness :
    ∃ res, get_similar_products
      [⟨10, "X", "b", some 5, none, none, [], "", ""⟩,
        ⟨20, "X", "b", some 5, none, none, [], "", ""⟩,
        ⟨30, "X", "b", some 5, none, none, [], "", ""⟩]
      [1, 1 / 2, 1 / 4] 10 2 = .ok res ∧ (0 : ℕ) ∉ res.map Prod.fst :=
  get_similar_excludes_ref
    [⟨10, "X", "b", some 5, none, none, [], "", ""⟩,
      ⟨20, "X", "b", some 5, none, none, [], "", ""⟩,
      ⟨30, "X", "b", some 5, none, none, [], "", ""⟩]
    [1, 1 / 2, 1 / 4] 10 2 0 (by norm_num) (by decide) (by decide)
    (by
      have hps : priceSimilarities
          [(⟨10, "X", "b", some 5, none, none, [], "", ""⟩ : Product),
            ⟨20, "X", "b", some 5, none, none, [], "", ""⟩,
            ⟨30, "X", "b", some 5, none, none, [], "", ""⟩] 0
          = [some 1, some 1, some 1] := by
        norm_num [priceSimilarities, optAbsSub, skipnaMax,
          show (List.replicate 3 (some (1 : ℚ))) = [some 1, some 1, some 1] from rfl]
      have hc : combinedScores
          [⟨10, "X", "b", some 5, none, none, [], "", ""⟩,
            ⟨20, "X", "b", some 5, none, none, [], "", ""⟩,
            ⟨30, "X", "b", some 5, none, none, [], "", ""⟩]
          [1, 1 / 2, 1 / 4] 0 = [some 0, some (7 / 10), some (11 / 20)] := by
        norm_num [combinedScores, hps, val, show List.range 3 = [0, 1, 2] from rfl]
      rw [hc]
      norm_num [posFilterO, valO, show List.range 3 = [0, 1, 2] from rfl])

/-! ## Claim C9 — trending score -/

/-- C9 as stated is false: the code computes `0.3 * (1000 / sell_price)`
with *no* floor on the divisor (only missing prices are filled with 1000),
so a product priced 500 scores `0.3 * 2 = 0.6`, not the claimed
`0.3 * (1000 / max(500, 1000)) = 0.3`.  Concretely, with products
`(discount 0, price 500)` and `(discount 3/5, price 4000)` and `limit = 1`,
the code ranks row 0 first (`3/5 > 99/200`) while the claimed formula ranks
row 1 first (`99/200 > 3/10`). -/
theorem trending_formula_counterexample :
    get_trending_products
      [⟨0, "", "", some 500, some 0, none, [], "", ""⟩,
        ⟨1, "", "", some 4000, some (3 / 5), none, [], "", ""⟩] 1
      = [(0, 3 / 5)] ∧
    get_trending_claimed
      [⟨0, "", "", some 500, some 0, none, [], "", ""⟩,
        ⟨1, "", "", some 4000, some (3 / 5), none, [], "", ""⟩] 1
      = [(1, 99 / 200)] ∧
    ([(0, 3 / 5)] : List (ℕ × ℚ)) ≠ [(1, 99 / 200)] := by
  refine ⟨?_, ?_, by decide⟩
  · norm_num [get_trending_products, trendingScore, rankDescFirst, val,
      DescLexFirst, show List.range 2 = [0, 1] from rfl]
  · norm_num [get_trending_claimed, trendingScoreClaimed, rankDescFirst, val,
      DescLexFirst, show List.range 2 = [0, 1] from rfl]

/-- C9 as amended: `get_trending_products` scores each product as
`0.7 * discount (0 when missing) + 0.3 * (1000 / sell_price)` with a missing
`sell_price` treated as 1000 and no floor on the divisor, and returns the
`limit` highest-scoring rows, ties broken by row order (`nlargest` keeps the
first-occurring row). -/
theorem trending_formula (ps : List Product) (limit : ℕ) :
    get_trending_products ps limit = get_trending_amended ps limit := by
  have hs : ps.map trendingScore = ps.map trendingScoreAmended := by
    apply List.map_congr_left
    intro p _
    unfold trendingScore trendingScoreAmended
    rcases eq_or_ne (p.sellPrice.getD 1000) 0 with h | h
    · rw [h]
      norm_num
      ring
    · field_simp
      ring
  unfold get_trending_products get_trending_amended
  rw [hs]

/-- Witness: irrelevant formally (the amended theorem has no hypotheses),
but the equality evaluated at the counterexample catalog. -/
theorem trending_formula_witness :
    get_trending_products
      [⟨0, "", "", some 500, some 0, none, [], "", ""⟩,
        ⟨1, "", "", some 4000, some (3 / 5), none, [], "", ""⟩] 1 =
    get_trending_amended
      [⟨0, "", "", some 500, some 0, none, [], "", ""⟩,
        ⟨1, "", "", some 4000, some (3 / 5), none, [], "", ""⟩] 1 :=
  trending_formula
    [⟨0, "", "", some 500, some 0, none, [], "", ""⟩,
      ⟨1, "", "", some 4000, some (3 / 5), none, [], "", ""⟩] 1

/-! ## Claims C3, C4 — taxonomy extraction -/

theorem foldDedup_aux (xs : List String) : ∀ acc : List String, acc.Nodup →
    (xs.foldl (fun acc x => if x ∈ acc then acc else acc ++ [x]) acc).Nodup ∧
    (∀ y, y ∈ xs.foldl (fun acc x => if x ∈ acc then acc else acc ++ [x]) acc ↔
      y ∈ acc ∨ y ∈ xs) := by
  induction xs with
  | nil => intro acc hacc; simpa using hacc
  | cons a t ih =>
    intro acc hacc
    by_cases ha : a ∈ acc
    · simp only [List.foldl_cons, if_pos ha]
      refine ⟨(ih acc hacc).1, fun y => ?_⟩
      rw [(ih acc hacc).2 y]
      constructor
      · rintro (h | h)
        · exact Or.inl h
        · exact Or.inr (List.mem_cons_of_mem a h)
      · rintro (h | h)
        · exact Or.inl h
        · rcases List.mem_cons.mp h with rfl | h
          · exact Or.inl ha
          · exact Or.inr h
    · have hacc2 : (acc ++ [a]).Nodup := by
        rw [List.nodup_append]
        exact ⟨hacc, List.nodup_singleton a, by simpa using ha⟩
      simp only [List.foldl_cons, if_neg ha]
      refine ⟨(ih (acc ++ [a]) hacc2).1, fun y => ?_⟩
      rw [(ih (acc ++ [a]) hacc2).2 y]
      simp only [List.mem_append, List.mem_singleton, List.mem_cons]
      tauto

theorem dedupKeepFirst_nodup (xs : List String) : (dedupKeepFirst xs).Nodup :=
  (foldDedup_aux xs [] List.nodup_nil).1

theorem dedupKeepFirst_mem (xs : List String) (y : String) :
    y ∈ dedupKeepFirst xs ↔ y ∈ xs := by
  rw [dedupKeepFirst, (foldDedup_aux xs [] List.nodup_nil).2 y]
  simp

theorem setAdd_nodup {l : List String} (x : String) (h : l.Nodup) :
    (setAdd l x).Nodup := by
  unfold setAdd
  by_cases hx : x ∈ l
  · rwa [if_pos hx]
  · rw [if_neg hx, List.nodup_append]
    exact ⟨h, List.nodup_singleton x, by simpa using hx⟩

theorem ruleTracksuit_nodup (t : List Char) {L : List String} (h : L.Nodup) :
    (ruleTracksuit t L).Nodup := by
  unfold ruleTracksuit
  split_ifs
  · exact setAdd_nodup _ (h.erase _)
  · exact h

theorem ruleDenim_nodup (t : List Char) {L : List String} (h : L.Nodup) :
    (ruleDenim t L).Nodup := by
  unfold ruleDenim
  split_ifs
  · exact h.erase _
  · exact h

theorem ruleKurta_nodup {L : List String} (h : L.Nodup) : (ruleKurta L).Nodup := by
  unfold ruleKurta
  split_ifs
  · exact setAdd_nodup _ (h.filter _)
  · exact setAdd_nodup _ h
  · exact h

theorem ruleFootwear_nodup {L : List String} (h : L.Nodup) :
    (ruleFootwear L).Nodup := by
  unfold ruleFootwear
  split_ifs
  · exact h.filter _
  · exact h

theorem ruleNecklace_nodup {L : List String} (h : L.Nodup) :
    (ruleNecklace L).Nodup := by
  unfold ruleNecklace
  split_ifs
  · exact h.erase _
  · exact h

theorem adjustedLabelSet_nodup (text : String) (labels : List String) :
    (adjustedLabelSet text labels).Nodup :=
  ruleNecklace_nodup (ruleFootwear_nodup (ruleKurta_nodup
    (ruleDenim_nodup _ (ruleTracksuit_nodup _ (dedupKeepFirst_nodup labels)))))

theorem labelsBefore_nodup (tax : List (String × List String)) (text : String) :
    (labelsBefore tax text).Nodup := by
  simp only [labelsBefore]
  split_ifs
  · exact (setAdd_nodup _ ((dedupKeepFirst_nodup _).erase _)).erase _
  · exact (dedupKeepFirst_nodup _).erase _
  · exact setAdd_nodup _ ((dedupKeepFirst_nodup _).erase _)
  · exact dedupKeepFirst_nodup _

theorem foldKept (L : List String) : ∀ (labels acc : List String), labels.Nodup →
    (∀ x ∈ labels, x ∉ acc) →
    labels.foldl (fun acc x => if x ∈ L ∧ x ∉ acc then acc ++ [x] else acc) acc
      = acc ++ labels.filter (fun x => decide (x ∈ L)) := by
  intro labels
  induction labels with
  | nil => intro acc _ _; simp
  | cons a t ih =>
    intro acc hnd hdisj
    have hat : a ∉ t := (List.nodup_cons.mp hnd).1
    have htnd : t.Nodup := (List.nodup_cons.mp hnd).2
    by_cases haL : a ∈ L
    · have hcond : a ∈ L ∧ a ∉ acc := ⟨haL, hdisj a (List.mem_cons_self a t)⟩
      simp only [List.foldl_cons, if_pos hcond]
      rw [ih (acc ++ [a]) htnd (fun x hx => by
        simp only [List.mem_append, List.mem_singleton]
        rintro (h | rfl)
        · exact hdisj x (List.mem_cons_of_mem a hx) h
        · exact hat hx)]
      simp [haL]
    · have hcond : ¬(a ∈ L ∧ a ∉ acc) := fun h => haL h.1
      simp only [List.foldl_cons, if_neg hcond]
      rw [ih acc htnd (fun x hx => hdisj x (List.mem_cons_of_mem a hx))]
      simp [haL]

theorem foldAppend : ∀ (L acc : List String), L.Nodup →
    L.foldl (fun acc x => if x ∉ acc then acc ++ [x] else acc) acc
      = acc ++ L.filter (fun x => decide (x ∉ acc)) := by
  intro L
  induction L with
  | nil => intro acc _; simp
  | cons a t ih =>
    intro acc hnd
    have hat : a ∉ t := (List.nodup_cons.mp hnd).1
    have htnd : t.Nodup := (List.nodup_cons.mp hnd).2
    by_cases ha : a ∈ acc
    · have hcond : ¬(a ∉ acc) := fun h => h ha
      simp only [List.foldl_cons, if_neg hcond]
      rw [ih acc htnd]
      simp [ha]
    · simp only [List.foldl_cons, if_pos ha]
      rw [ih (acc ++ [a]) htnd]
      have hfeq : t.filter (fun x => decide (x ∉ acc ++ [a]))
          = t.filter (fun x => decide (x ∉ acc)) := by
        apply List.filter_congr
        intro x hx
        simp only [decide_eq_decide, List.mem_append, List.mem_singleton]
        have hxa : x ≠ a := fun h => hat (h ▸ hx)
        tauto
      rw [hfeq]
      simp [ha, List.append_assoc]

/-- The ordering part of `_post_rules`, solved: on a duplicate-free label
list, the output is the kept labels (members of the rule-adjusted set `L`)
in input order, followed by the remaining members of `L` in `L`'s order. -/
theorem post_rules_spec (text : String) (labels : List String) (h : labels.Nodup) :
    post_rules text labels =
      labels.filter (fun x => decide (x ∈ adjustedLabelSet text labels)) ++
        (adjustedLabelSet text labels).filter
          (fun x => decide (x ∉
            labels.filter (fun x => decide (x ∈ adjustedLabelSet text labels)))) := by
  simp only [post_rules]
  rw [foldKept (adjustedLabelSet text labels) labels [] h (by simp)]
  rw [List.nil_append]
  rw [foldAppend (adjustedLabelSet text labels) _ (adjustedLabelSet_nodup text labels)]

/-- C3 as stated is false on the order of kept labels: for the text
`"top maxi"` the code picks candidates longest-match-first (`maxi`, an alias
of `gown`, has 4 characters; `top` has 3), so `_post_rules` receives and
keeps `["gown", "top"]`, while first-discovered order in the text is
`["top", "gown"]` (`top` starts at offset 0, `maxi` at offset 4). -/
theorem extract_order_counterexample :
    extract_product_type TAXONOMY "top maxi" = ["gown", "top"] ∧
    extract_claimed TAXONOMY "top maxi" = ["top", "gown"] ∧
    extract_product_type TAXONOMY "top maxi" ≠ extract_claimed TAXONOMY "top maxi" := by
  have h1 : extract_product_type TAXONOMY "top maxi" = ["gown", "top"] := by decide
  have h2 : extract_claimed TAXONOMY "top maxi" = ["top", "gown"] := by decide
  exact ⟨h1, h2, by rw [h1, h2]; decide⟩

/-- C3 as amended: for every input text the extraction returns a
duplicate-free list whose elements are exactly the rule-adjusted label set;
labels kept by the rules appear in the order the candidate pipeline handed
to `_post_rules` — the longest-match-first order of overlap resolution as
materialized through a Python `set`, *not* first-discovered text order — and
labels newly added by the rules are appended at the end. -/
theorem extract_structure (text : String) :
    extract_product_type TAXONOMY text =
      (labelsBefore TAXONOMY text).filter
        (fun x => decide (x ∈ adjustedLabelSet text (labelsBefore TAXONOMY text))) ++
      (adjustedLabelSet text (labelsBefore TAXONOMY text)).filter
        (fun x => decide (x ∉ (labelsBefore TAXONOMY text).filter
          (fun x => decide (x ∈ adjustedLabelSet text (labelsBefore TAXONOMY text))))) ∧
    (extract_product_type TAXONOMY text).Nodup ∧
    (∀ x, x ∈ extract_product_type TAXONOMY text ↔
      x ∈ adjustedLabelSet text (labelsBefore TAXONOMY text)) := by
  have hnd := labelsBefore_nodup TAXONOMY text
  have hspec := post_rules_spec text (labelsBefore TAXONOMY text) hnd
  have hmain : extract_product_type TAXONOMY text =
      (labelsBefore TAXONOMY text).filter
        (fun x => decide (x ∈ adjustedLabelSet text (labelsBefore TAXONOMY text))) ++
      (adjustedLabelSet text (labelsBefore TAXONOMY text)).filter
        (fun x => decide (x ∉ (labelsBefore TAXONOMY text).filter
          (fun x => decide (x ∈ adjustedLabelSet text (labelsBefore TAXONOMY text))))) := by
    rw [extract_product_type, hspec]
  refine ⟨hmain, ?_, ?_⟩
  · rw [hmain]
    rw [List.nodup_append]
    refine ⟨hnd.filter _, (adjustedLabelSet_nodup text _).filter _, ?_⟩
    intro x hx hx2
    have := (List.mem_filter.mp hx2).2
    simp only [decide_eq_true_eq] at this
    exact this hx
  · intro x
    rw [hmain]
    simp only [List.mem_append, List.mem_filter, decide_eq_true_eq]
    constructor
    · rintro (⟨_, h⟩ | ⟨h, _⟩) <;> exact h
    · intro hxL
      by_cases hkept : x ∈ (labelsBefore TAXONOMY text).filter
          (fun x => decide (x ∈ adjustedLabelSet text (labelsBefore TAXONOMY text)))
      · rcases List.mem_filter.mp hkept with ⟨h1, h2⟩
        exact Or.inl ⟨h1, by simpa using h2⟩
      · refine Or.inr ⟨hxL, ?_⟩
        intro hand
        exact hkept (List.mem_filter.mpr ⟨hand.1, by simpa using hand.2⟩)

/-- C4: the taxonomy extraction collapses
`"kurta with dupatta and palazzo"` to exactly the single label
`"salwar suit"` — no `kurta`, `dupatta` or `palazzo` remains. -/
theorem kurta_dupatta_palazzo_collapse :
    extract_product_type TAXONOMY "kurta with dupatta and palazzo" =
      ["salwar suit"] := by decide

end ShopAssist
